import Mathlib

/-!
Verification of the HTTP router of `text-embeddings-inference-4-weaviate`.

This file gives a shallow embedding of `src/router/src/http/types.rs` and
`src/router/src/http/server.rs` and proves properties of the input grammar,
the batch orchestration, the metrics aggregation and the error taxonomy.
Machine integers are modelled as `Nat` (the values involved never overflow a
`u64` in the scenarios of the claims); `f32` scores are modelled as rationals
with their total order (the source unwraps `partial_cmp`, so `NaN` is outside
the modelled behaviour); fallible code returns `Except`/`Option`; a Rust
panic (such as `u64` division by zero) is an explicit `RunResult.panic`.
-/

namespace TEI

/-- A JSON value, as seen by the serde deserializer of the router. Object field
order is kept because serde reads fields in order of appearance. -/
inductive Json where
  | str (s : String)
  | arr (elems : List Json)
  | num (n : Int)
  | boolean (b : Bool)
  | null
  | obj (fields : List (String × Json))

/-- Deserialization errors, at the granularity the claims distinguish:
serde's `invalid_length` carries the offending length; every other failure
(invalid type, untagged-enum mismatch, missing field) is a type error. -/
inductive DeError where
  | invalidLength (len : Nat)
  | invalidType
deriving DecidableEq

/-- Embeds deserializing a JSON value as a Rust `String`: succeeds exactly on
a JSON string. -/
def Json.asString : Json → Except DeError String
  | .str s => .ok s
  | _ => .error .invalidType

/-- Embeds deserializing a JSON value as a Rust `Vec<String>`: succeeds exactly
on an array whose elements are all strings. -/
def Json.asVecString : Json → Except DeError (List String)
  | .arr es => es.mapM Json.asString
  | _ => .error .invalidType

/-- Embeds deserializing a JSON value as a Rust `bool`. -/
def Json.asBool : Json → Except DeError Bool
  | .boolean b => .ok b
  | _ => .error .invalidType

/-- Embeds the untagged helper enum `Internal` of `PredictInput::deserialize`
(`types.rs`): `Single(String)` or `Multiple(Vec<String>)`. -/
inductive Internal where
  | single (s : String)
  | multiple (v : List String)
deriving DecidableEq

/-- Embeds serde's untagged deserialization of `Internal`: try the `Single`
variant, then `Multiple`; if neither matches the result is a type error. -/
def Json.asInternal (j : Json) : Except DeError Internal :=
  match j.asString with
  | .ok s => .ok (.single s)
  | .error _ =>
    match j.asVecString with
    | .ok v => .ok (.multiple v)
    | .error _ => .error .invalidType

/-- Embeds `Sequence` (`types.rs`): one classification unit. -/
inductive Sequence where
  | single (s : String)
  | pair (s1 s2 : String)
deriving DecidableEq

/-- Embeds `Sequence::count_chars`. -/
def Sequence.countChars : Sequence → Nat
  | .single s => s.length
  | .pair s1 s2 => s1.length + s2.length

/-- Embeds `PredictInput` (`types.rs`). -/
inductive PredictInput where
  | single (s : Sequence)
  | batch (b : List Sequence)
deriving DecidableEq

/-- Embeds the `sequence_from_vec` closure of `PredictInput::deserialize`:
a one-element vector becomes `Single`, a two-element vector becomes `Pair`,
any other length fails with `invalid_length` of that length. -/
def sequenceFromVec : List String → Except DeError Sequence
  | [v] => .ok (.single v)
  | [v1, v2] => .ok (.pair v1 v2)
  | v => .error (.invalidLength v.length)

/-- Embeds the `while let Some(value) = seq.next_element::<Vec<String>>()` loop
of `visit_seq`: each remaining element is deserialized as `Vec<String>` and
converted by `sequence_from_vec`, in order. -/
def batchRest : List Json → Except DeError (List Sequence)
  | [] => .ok []
  | e :: rest => do
    let v ← e.asVecString
    let s ← sequenceFromVec v
    let b ← batchRest rest
    pure (s :: b)

/-- Embeds `PredictInputVisitor::visit_seq` (`types.rs` lines 72-133): the
first element is deserialized as the untagged `Internal`; a string commits to
flat-sequence mode (at most two elements, the second deserialized as `String`,
a third `String` element triggers `invalid_length 3`); a `Vec<String>` commits
to batch mode (the remaining elements are consumed by `batchRest`). -/
def visitSeq : List Json → Except DeError PredictInput
  | [] => .error (.invalidLength 0)
  | e0 :: rest =>
    match e0.asInternal with
    | .error err => .error err
    | .ok (.single value) =>
      match rest with
      | [] => .ok (.single (.single value))
      | e1 :: rest2 =>
        match e1.asString with
        | .error err => .error err
        | .ok second =>
          match rest2 with
          | [] => .ok (.single (.pair value second))
          | e2 :: _ =>
            match e2.asString with
            | .error err => .error err
            | .ok _ => .error (.invalidLength 3)
    | .ok (.multiple value) =>
      match sequenceFromVec value with
      | .error err => .error err
      | .ok s =>
        match batchRest rest with
        | .error err => .error err
        | .ok b => .ok (.batch (s :: b))

/-- Embeds `PredictInput::deserialize` (`types.rs` lines 40-138):
`deserialize_any` sends a JSON string to `visit_str`, a JSON array to
`visit_seq`; any other JSON type reaches a visitor method the visitor does not
implement and fails with a type error. -/
def PredictInput.deserialize : Json → Except DeError PredictInput
  | .str s => .ok (.single (.single s))
  | .arr es => visitSeq es
  | _ => .error .invalidType

/-- Written from the specification's words (§4.1, amended): convert one
top-level batch element, which must be an array of 1 or 2 strings; any other
length is an error with that length, a non-array-of-strings is a type error. -/
def specElemToSequence (e : Json) : Except DeError Sequence := do
  let ss ← e.asVecString
  match ss with
  | [a] => pure (.single a)
  | [a, b] => pure (.pair a b)
  | other => throw (.invalidLength other.length)

/-- Written from the specification's words (§4.1, amended): flat-sequence mode
for an array whose first element is the string `s0`. At most two elements are
read in full; with a second element present it must be a string; with a third
element present the result is an error - `invalid_length 3` when the second
and third elements are strings, the first type error otherwise. -/
def specFlat (s0 : String) : List Json → Except DeError PredictInput
  | [] => .ok (.single (.single s0))
  | [e1] => do
    let s1 ← e1.asString
    pure (.single (.pair s0 s1))
  | e1 :: e2 :: _ => do
    let _ ← e1.asString
    let _ ← e2.asString
    throw (.invalidLength 3)

/-- Written from the specification's words (§4.1): convert every top-level
batch element in input order, appending the results. -/
def specConvertAll : List Json → Except DeError (List Sequence)
  | [] => .ok []
  | e :: rest => do
    let s ← specElemToSequence e
    let tl ← specConvertAll rest
    pure (s :: tl)

/-- Written from the specification's words (§4.1, amended): the lookahead
decision procedure. A string is a single `Single` sequence; an empty array is
`invalid_length 0`; an array whose first element is a string is decoded in
flat-sequence mode; an array whose first element is an array of strings is
decoded in batch mode, every top-level element converted in input order; any
other value (or first element) is a type error. -/
def specDecode : Json → Except DeError PredictInput
  | .str s => .ok (.single (.single s))
  | .arr [] => .error (.invalidLength 0)
  | .arr (e0 :: rest) =>
    match e0 with
    | .str s0 => specFlat s0 rest
    | .arr xs =>
      match (Json.arr xs).asVecString with
      | .error _ => .error .invalidType
      | .ok _ => do
        let seqs ← specConvertAll (Json.arr xs :: rest)
        pure (.batch seqs)
    | _ => .error .invalidType
  | _ => .error .invalidType

/-- Embeds `ErrorType` (the closed five-kind error set of the router). -/
inductive ErrorType where
  | unhealthy
  | backend
  | overloaded
  | tokenizer
  | validation
deriving DecidableEq

/-- Embeds `From<&ErrorType> for StatusCode` (`server.rs` lines 952-962). -/
def ErrorType.statusCode : ErrorType → Nat
  | .unhealthy => 503
  | .backend => 424
  | .overloaded => 429
  | .tokenizer => 422
  | .validation => 413

/-- Embeds `ErrorResponse`: the native wire error schema `{error, error_type}`. -/
structure ErrorResponse where
  error : String
  errorType : ErrorType
deriving DecidableEq

/-- Embeds `OpenAICompatErrorResponse` (`types.rs`): the OpenAI-compatible
wire error schema `{message, type, code}`. -/
structure OpenAICompatErrorResponse where
  message : String
  code : Nat
  errorType : ErrorType
deriving DecidableEq

/-- Embeds `From<ErrorResponse> for OpenAICompatErrorResponse`
(`server.rs` lines 964-972). -/
def ErrorResponse.toOpenAICompat (v : ErrorResponse) : OpenAICompatErrorResponse :=
  { message := v.error, code := v.errorType.statusCode, errorType := v.errorType }

/-- Scores are the source's `f32` values, modelled as rationals with their
total order (the source unwraps `partial_cmp`, so `NaN` is outside the
modelled behaviour). -/
abbrev Score := ℚ

/-- Embeds `InferResponse` of `text_embeddings_core` as consumed by the
handlers: a score/embedding vector plus per-call token and duration counts.
Durations are in nanoseconds, as read by `as_nanos()` in the batch loops. -/
structure InferResponse where
  results : List Score
  promptTokens : Nat
  tokenization : Nat
  queue : Nat
  inference : Nat
deriving DecidableEq

/-- Modelled from the spec (§6): the inference collaborator's
`predict(sequence, truncate, raw_scores, permit)` call (`Infer::predict` of
`text_embeddings_core` is not part of the given source). The permit is
implicit in the embedding; a failure carries one of the five error kinds. -/
abbrev PredictOracle := Sequence → Bool → Bool → Except ErrorResponse InferResponse

/-- Modelled from the spec (§6): the collaborator's
`embed(text, truncate, normalize, permit)` call. -/
abbrev EmbedOracle := String → Bool → Bool → Except ErrorResponse InferResponse

/-- Modelled from the spec (§4.2): `try_acquire` returns immediately and fails
with `Overloaded` exactly when no budget slot is free (`Infer` is not part of
the given source). -/
def tryAcquirePermit (freeSlots : Nat) : Except ErrorResponse Unit :=
  if freeSlots = 0 then .error ⟨"Model is overloaded", .overloaded⟩ else .ok ()

/-- Modelled from the spec (§4.2): blocking `acquire` suspends until a budget
slot is available and never fails; in the embedding it simply yields the
permit. -/
def acquirePermit : Unit := ()

/-- Counter increments recorded by a handler run. `inferFailure` is modelled
from the spec (§7): every failed collaborator call is recorded as a labeled
failure counter inside the collaborator, which is not part of the given
source. -/
inductive MetricEvent where
  | requestCount (method : String)
  | requestSuccess (method : String)
  | requestFailure (reason : String)
  | inferFailure
deriving DecidableEq

/-- The three observability surfaces of §4.4: transport headers
(`HeaderMap::from(metadata)`), the trace span (`metadata.record_span`) and
metric observations (`metadata.record_metrics`). -/
inductive Surface where
  | transportHeaders
  | traceSpan
  | metricObservations
deriving DecidableEq

/-- Outcome of a handler run: a successful value, an error response paired
with the status code the handler maps it to, or a Rust panic (such as `u64`
division by zero). -/
inductive RunResult (A : Type) where
  | ok (a : A)
  | err (status : Nat) (e : ErrorResponse)
  | panic
deriving DecidableEq

/-- A handler run: its result, the counter events recorded, the number of
single-item inference calls dispatched, and the observability surfaces the
response metadata was rendered to. -/
structure HandlerRun (A : Type) where
  result : RunResult A
  events : List MetricEvent
  inferCalls : Nat
  surfaces : List Surface
deriving DecidableEq

/-- Embeds `ResponseMetadata` as constructed by `ResponseMetadata::new` in the
handlers. The wall-clock fields (`start_time`, `total_time`) are outside the
shallow embedding and omitted. -/
structure ResponseMetadata where
  computeChars : Nat
  computeTokens : Nat
  tokenization : Nat
  queue : Nat
  inference : Nat
deriving DecidableEq

/-- Embeds the model capability dispatch of `ModelType`. -/
inductive ModelType where
  | classifier
  | reranker
  | embedding
deriving DecidableEq

/-- Embeds the fields of `Info` that the handlers read. -/
structure Info where
  modelId : String
  modelType : ModelType
  maxClientBatchSize : Nat
deriving DecidableEq

/-- Embeds `join_all(futures).await.into_iter().collect::<Result<Vec<_>, _>>()`:
every future runs to completion; the collect yields the first `Err` in input
order, discarding any already-completed successes, and otherwise all results
in input order. -/
def collectResults : List (Except ErrorResponse A) → Except ErrorResponse (List A)
  | [] => .ok []
  | .error e :: _ => .error e
  | .ok a :: rest =>
    match collectResults rest with
    | .error e => .error e
    | .ok tl => .ok (a :: tl)

/-- Counter events recorded by the modelled collaborator for a list of
per-item outcomes: one `inferFailure` per failed call, in input order. -/
def inferFailureEvents (l : List (Except ErrorResponse A)) : List MetricEvent :=
  l.filterMap (fun r => match r with | .error _ => some .inferFailure | .ok _ => none)

/-- Summation by left fold, mirroring the `total_* += ...` accumulation loops
of the batch paths. -/
def sumBy (f : A → Nat) (l : List A) : Nat := l.foldl (fun acc r => acc + f r) 0

/-- Rust unsigned integer division, as in the source's
`total_nanos / batch_size` on `u64`: truncating, and a panic when the divisor
is zero. -/
def rustDiv (a b : Nat) : Option Nat := if b = 0 then none else some (a / b)

/-- Embeds the oversized-batch `ErrorResponse` shared by all batch paths. -/
def batchSizeError (batchSize maxSize : Nat) : ErrorResponse :=
  ⟨s!"batch size {batchSize} > maximum allowed batch size {maxSize}", .validation⟩

/-- One completion event of the fan-out/gather: task `k` finishes and writes
its outcome into slot `k`; no other slot is touched. -/
def writeSlot (tasks : List A) (slots : List (Option A)) (k : Nat) : List (Option A) :=
  match tasks[k]? with
  | some v => slots.set k (some v)
  | none => slots

/-- Fan-out/gather execution model of `join_all`: starting from one empty slot
per task, the tasks complete in the arbitrary order `order`, each writing only
its own index. -/
def gatherExec (tasks : List A) (order : List Nat) : List (Option A) :=
  order.foldl (writeSlot tasks) (List.replicate tasks.length none)

/-- All slot values, when every slot is filled. -/
def allSome {A : Type} : List (Option A) → Option (List A)
  | [] => some []
  | none :: _ => none
  | some a :: rest =>
    match allSome rest with
    | none => none
    | some l => some (a :: l)

/-- The gathered aggregate of the fan-out: all slots read in index order, once
every task has completed. -/
def joinAllExec (tasks : List A) (order : List Nat) : Option (List A) :=
  allSome (gatherExec tasks order)

/-- The batch orchestration shared verbatim by the four batch paths
(`server.rs`: predict lines 200-267, rerank 357-438, embed 506-572,
openai_embed 712-780): guard the client batch size before dispatching
anything, fan out one task per item, collect with fail-fast semantics,
aggregate the duration averages with truncating division (a `u64` division
that panics on an empty batch), and build the flavor's response from the
per-item outputs in input order. The flavor passes its per-item call results
`items`, its pre-dispatch character count, its duration/token projections and
its response builder. -/
def runBatch {ItemOut Resp : Type}
    (maxSize : Nat) (items : List (Except ErrorResponse ItemOut))
    (computeChars : Nat) (tokens tok que inf : ItemOut → Nat)
    (mkResponse : List ItemOut → Resp) : HandlerRun (Resp × ResponseMetadata) :=
  let ev0 := [MetricEvent.requestCount "batch"]
  let batchSize := items.length
  if batchSize > maxSize then
    ⟨.err ErrorType.validation.statusCode (batchSizeError batchSize maxSize),
      ev0 ++ [.requestFailure "batch_size"], 0, []⟩
  else
    match collectResults items with
    | .error e =>
      ⟨.err e.errorType.statusCode e, ev0 ++ inferFailureEvents items, batchSize, []⟩
    | .ok results =>
      match rustDiv (sumBy tok results) batchSize, rustDiv (sumBy que results) batchSize,
          rustDiv (sumBy inf results) batchSize with
      | some tokAvg, some queAvg, some infAvg =>
        ⟨.ok (mkResponse results,
            ⟨computeChars, sumBy tokens results, tokAvg, queAvg, infAvg⟩),
          ev0 ++ inferFailureEvents items ++ [.requestSuccess "batch"], batchSize,
          [.traceSpan, .metricObservations, .transportHeaders]⟩
      | _, _, _ =>
        ⟨.panic, ev0 ++ inferFailureEvents items ++ [.requestSuccess "batch"], batchSize, []⟩

/-- Embeds `PredictRequest` (`types.rs`). -/
structure PredictRequest where
  inputs : PredictInput
  truncate : Bool
  rawScores : Bool

/-- Embeds `Prediction` (`types.rs`). -/
structure Prediction where
  score : Score
  label : String
deriving DecidableEq

/-- Embeds `PredictResponse` (`types.rs`). -/
inductive PredictResponse where
  | single (preds : List Prediction)
  | batch (preds : List (List Prediction))
deriving DecidableEq

/-- Ascending score comparison used by the source's
`sort_by(|x, y| x.score.partial_cmp(&y.score).unwrap())` on predictions. -/
def predLe (x y : Prediction) : Prop := x.score ≤ y.score

instance : DecidableRel predLe := fun x y => inferInstanceAs (Decidable (x.score ≤ y.score))

instance : IsTotal Prediction predLe := ⟨fun a b => le_total a.score b.score⟩

instance : IsTrans Prediction predLe := ⟨fun _ _ _ h1 h2 => le_trans h1 h2⟩

/-- Per-item output of the `predict_inner` closure, the tuple
`(usize, Duration, Duration, Duration, Vec<Prediction>)` of the source. -/
structure PredictItemOut where
  promptTokens : Nat
  tokenization : Nat
  queue : Nat
  inference : Nat
  predictions : List Prediction
deriving DecidableEq

/-- Embeds the `predict_inner` closure (`server.rs` lines 123-168), permit
resolution aside: one single-item inference call, each score mapped to the
label of its position (the source selects `id2label` from the classifier or
re-ranker model info and unwraps every lookup; it is modelled as a total
function), then a stable ascending sort by score followed by `reverse`
(Rust's stable `sort_by` and insertion sort agree for a fixed comparator). -/
def predictInner (id2label : Nat → String) (oracle : PredictOracle)
    (inputs : Sequence) (truncate rawScores : Bool) : Except ErrorResponse PredictItemOut :=
  match oracle inputs truncate rawScores with
  | .error e => .error e
  | .ok r =>
    .ok ⟨r.promptTokens, r.tokenization, r.queue, r.inference,
      ((r.results.enum.map (fun p => Prediction.mk p.2 (id2label p.1))).insertionSort
          predLe).reverse⟩

/-- Embeds the `/predict` handler (`server.rs` lines 114-278). `freeSlots` is
the free-slot count seen by the lone-request `try_acquire`; batch items use
the blocking `acquire`, which never fails (§4.2). In the source the success
counter of the batch path is incremented before `ResponseMetadata::new`
evaluates the duration divisions, so a division panic still records it. -/
def predictHandler (freeSlots : Nat) (info : Info) (id2label : Nat → String)
    (oracle : PredictOracle) (req : PredictRequest) :
    HandlerRun (PredictResponse × ResponseMetadata) :=
  match req.inputs with
  | .single inputs =>
    let ev0 := [MetricEvent.requestCount "single"]
    let computeChars := inputs.countChars
    match tryAcquirePermit freeSlots with
    | .error e => ⟨.err e.errorType.statusCode e, ev0, 0, []⟩
    | .ok _ =>
      match predictInner id2label oracle inputs req.truncate req.rawScores with
      | .error e => ⟨.err e.errorType.statusCode e, ev0 ++ [.inferFailure], 1, []⟩
      | .ok r =>
        ⟨.ok (.single r.predictions,
            ⟨computeChars, r.promptTokens, r.tokenization, r.queue, r.inference⟩),
          ev0 ++ [.requestSuccess "single"], 1,
          [.traceSpan, .metricObservations, .transportHeaders]⟩
  | .batch inputs =>
    runBatch info.maxClientBatchSize
      (inputs.map (fun s => predictInner id2label oracle s req.truncate req.rawScores))
      (sumBy Sequence.countChars inputs)
      PredictItemOut.promptTokens PredictItemOut.tokenization PredictItemOut.queue
      PredictItemOut.inference
      (fun results => .batch (results.map PredictItemOut.predictions))

/-- Embeds the untagged `Input` enum (`types.rs`): a string or an array of
strings - the simpler sibling grammar with no pairing and no lookahead
ambiguity. An empty JSON array deserializes as `batch []`. -/
inductive Input where
  | single (s : String)
  | batch (b : List String)
deriving DecidableEq

/-- Embeds `EmbedRequest` (`types.rs`). -/
structure EmbedRequest where
  inputs : Input
  truncate : Bool
  normalize : Bool

/-- Embeds `EmbedResponse` (`types.rs`): a list of embedding vectors. -/
abbrev EmbedResponse := List (List Score)

/-- Embeds the `/embed` handler (`server.rs` lines 472-583). Structure as in
`predictHandler`: lone requests `try_acquire`, batch items block on `acquire`;
the batch path guards only `batch_size > max_client_batch_size` before the
duration divisions. -/
def embedHandler (freeSlots : Nat) (info : Info) (oracle : EmbedOracle)
    (req : EmbedRequest) : HandlerRun (EmbedResponse × ResponseMetadata) :=
  match req.inputs with
  | .single input =>
    let ev0 := [MetricEvent.requestCount "single"]
    let computeChars := input.length
    match tryAcquirePermit freeSlots with
    | .error e => ⟨.err e.errorType.statusCode e, ev0, 0, []⟩
    | .ok _ =>
      match oracle input req.truncate req.normalize with
      | .error e => ⟨.err e.errorType.statusCode e, ev0 ++ [.inferFailure], 1, []⟩
      | .ok r =>
        ⟨.ok ([r.results], ⟨computeChars, r.promptTokens, r.tokenization, r.queue, r.inference⟩),
          ev0 ++ [.requestSuccess "single"], 1,
          [.traceSpan, .metricObservations, .transportHeaders]⟩
  | .batch inputs =>
    runBatch info.maxClientBatchSize
      (inputs.map (fun t => oracle t req.truncate req.normalize))
      (sumBy String.length inputs)
      InferResponse.promptTokens InferResponse.tokenization InferResponse.queue
      InferResponse.inference
      (fun results => results.map InferResponse.results)

/-- Embeds `OpenAICompatRequest` (`types.rs`). -/
structure OpenAICompatRequest where
  input : Input
  model : Option String
  user : Option String

/-- Embeds `OpenAICompatEmbedding` (`types.rs`). -/
structure OpenAICompatEmbedding where
  object : String
  embedding : List Score
  index : Nat
deriving DecidableEq

/-- Embeds `OpenAICompatUsage` (`types.rs`). -/
structure OpenAICompatUsage where
  promptTokens : Nat
  totalTokens : Nat
deriving DecidableEq

/-- Embeds `OpenAICompatResponse` (`types.rs`). -/
structure OpenAICompatResponse where
  object : String
  data : List OpenAICompatEmbedding
  model : String
  usage : OpenAICompatUsage
deriving DecidableEq

/-- Embeds the `/embeddings` handler `openai_embed` (`server.rs` lines
673-801): the embed flow with `truncate = false` and `normalize = true`
hard-wired, the batch data enumerated so that element `i` carries `index: i`,
and usage counts taken from `metadata.compute_tokens`. -/
def openaiHandler (freeSlots : Nat) (info : Info) (oracle : EmbedOracle)
    (req : OpenAICompatRequest) : HandlerRun (OpenAICompatResponse × ResponseMetadata) :=
  match req.input with
  | .single input =>
    let ev0 := [MetricEvent.requestCount "single"]
    let computeChars := input.length
    match tryAcquirePermit freeSlots with
    | .error e => ⟨.err e.errorType.statusCode e, ev0, 0, []⟩
    | .ok _ =>
      match oracle input false true with
      | .error e => ⟨.err e.errorType.statusCode e, ev0 ++ [.inferFailure], 1, []⟩
      | .ok r =>
        let md : ResponseMetadata :=
          ⟨computeChars, r.promptTokens, r.tokenization, r.queue, r.inference⟩
        ⟨.ok (⟨"list", [⟨"embedding", r.results, 0⟩], info.modelId,
              ⟨md.computeTokens, md.computeTokens⟩⟩, md),
          ev0 ++ [.requestSuccess "single"], 1,
          [.traceSpan, .metricObservations, .transportHeaders]⟩
  | .batch inputs =>
    runBatch info.maxClientBatchSize
      (inputs.map (fun t => oracle t false true))
      (sumBy String.length inputs)
      InferResponse.promptTokens InferResponse.tokenization InferResponse.queue
      InferResponse.inference
      (fun results =>
        ⟨"list", results.enum.map (fun p => ⟨"embedding", p.2.results, p.1⟩),
          info.modelId,
          ⟨sumBy InferResponse.promptTokens results, sumBy InferResponse.promptTokens results⟩⟩)

/-- Embeds `RerankRequest` (`types.rs`). -/
structure RerankRequest where
  query : String
  texts : List String
  truncate : Bool
  rawScores : Bool
  returnText : Bool

/-- Embeds `Rank` (`types.rs`). -/
structure Rank where
  index : Nat
  text : Option String
  score : Score
deriving DecidableEq

/-- Ascending score comparison used by the source's
`sort_by(|x, y| x.score.partial_cmp(&y.score).unwrap())` on ranks. -/
def rankLe (x y : Rank) : Prop := x.score ≤ y.score

instance : DecidableRel rankLe := fun x y => inferInstanceAs (Decidable (x.score ≤ y.score))

instance : IsTotal Rank rankLe := ⟨fun a b => le_total a.score b.score⟩

instance : IsTrans Rank rankLe := ⟨fun _ _ _ h1 h2 => le_trans h1 h2⟩

/-- Per-item output of the `rerank_inner` closure, the tuple
`(usize, Duration, Duration, Duration, f32)` of the source. -/
structure RerankItemOut where
  promptTokens : Nat
  tokenization : Nat
  queue : Nat
  inference : Nat
  score : Score
deriving DecidableEq

/-- Embeds the `rerank_inner` closure (`server.rs` lines 334-355): blocking
permit acquisition, one `predict` call on the `(query, text)` pair, and the
score read `response.results[0]` (the source indexes position 0; the engine
returns one score per re-rank call, so the embedding reads the head, with
default 0 for the out-of-model empty case). -/
def rerankInner (oracle : PredictOracle) (query text : String)
    (truncate rawScores : Bool) : Except ErrorResponse RerankItemOut :=
  match oracle (.pair query text) truncate rawScores with
  | .error e => .error e
  | .ok r => .ok ⟨r.promptTokens, r.tokenization, r.queue, r.inference, r.results.headD 0⟩

/-- Embeds the rank-building loop of `/rerank` (`server.rs` lines 401-417):
`results.into_iter().enumerate()` pushes, in input order, a `Rank` whose
`index` is the item's input position, whose `text` echoes `texts[index]` when
`return_text` is set, and whose `score` is the item's inference score. -/
def buildRanks (returnText : Bool) (texts : List String)
    (results : List RerankItemOut) : List Rank :=
  results.enum.map (fun p =>
    ⟨p.1, if returnText then some (texts.getD p.1 "") else none, p.2.score⟩)

/-- Embeds the `/rerank` handler (`server.rs` lines 303-448): the model
capability is checked once, before any counter or dispatch; every item then
runs `rerank_inner` with a blocking permit; the ranks are sorted ascending by
score and reversed. The `Backend` messages reproduce the source's two
wordings. -/
def rerankHandler (info : Info) (oracle : PredictOracle) (req : RerankRequest) :
    HandlerRun (List Rank × ResponseMetadata) :=
  match info.modelType with
  | .classifier =>
    ⟨.err ErrorType.backend.statusCode ⟨"model is not a re-ranker model", .backend⟩,
      [.requestFailure "model_type"], 0, []⟩
  | .embedding =>
    ⟨.err ErrorType.backend.statusCode ⟨"model is not a classifier model", .backend⟩,
      [.requestFailure "model_type"], 0, []⟩
  | .reranker =>
    runBatch info.maxClientBatchSize
      (req.texts.map (fun t => rerankInner oracle req.query t req.truncate req.rawScores))
      (req.query.length * req.texts.length + sumBy String.length req.texts)
      RerankItemOut.promptTokens RerankItemOut.tokenization RerankItemOut.queue
      RerankItemOut.inference
      (fun results =>
        ((buildRanks req.returnText req.texts results).insertionSort rankLe).reverse)

/-- Embeds `EmbedWeaviateRequest` (`types.rs`). -/
structure EmbedWeaviateRequest where
  text : String
  truncate : Bool
  normalize : Bool
deriving DecidableEq

/-- Embeds `EmbedWeaviateResponse` (`types.rs`). -/
structure EmbedWeaviateResponse where
  text : String
  vector : List Score
  dim : Nat
deriving DecidableEq

/-- Values of the fields with a given name in a JSON object, in order. -/
def Json.fieldValues (fields : List (String × Json)) (name : String) : List Json :=
  (fields.filter (fun p => p.1 = name)).map (fun p => p.2)

/-- Embeds the derived serde deserializer of `EmbedWeaviateRequest` applied by
`from_slice` (`server.rs` line 612): the body must be an object with a string
field `text`; `truncate` and `normalize` are optional booleans defaulting to
`false` and `true`; a missing or mistyped or duplicated field fails. -/
def parseWeaviateRequest : Json → Option EmbedWeaviateRequest
  | .obj fields =>
    match Json.fieldValues fields "text", Json.fieldValues fields "truncate",
        Json.fieldValues fields "normalize" with
    | [t], trs, nrs => do
      let text ← t.asString.toOption
      let tr ← match trs with
        | [] => some false
        | [v] => v.asBool.toOption
        | _ => none
      let nr ← match nrs with
        | [] => some true
        | [v] => v.asBool.toOption
        | _ => none
      some ⟨text, tr, nr⟩
    | _, _, _ => none
  | _ => none

/-- Embeds the `/vectors` handler `weaviate_embed` (`server.rs` lines
607-649): a body that fails to deserialize is answered with the literal
status `StatusCode::BAD_REQUEST` (400) and a `Validation` error before any
permit or inference work; a parsed request takes `try_acquire` and one embed
call. The source records no counters for this route, never constructs a
`ResponseMetadata`, and returns `HeaderMap::new()` - so no observability
surface is rendered even on success. -/
def weaviateHandler (freeSlots : Nat) (oracle : EmbedOracle) (body : Json) :
    HandlerRun EmbedWeaviateResponse :=
  match parseWeaviateRequest body with
  | none => ⟨.err 400 ⟨"Invalid request body", .validation⟩, [], 0, []⟩
  | some req =>
    match tryAcquirePermit freeSlots with
    | .error e => ⟨.err e.errorType.statusCode e, [], 0, []⟩
    | .ok _ =>
      match oracle req.text req.truncate req.normalize with
      | .error e => ⟨.err e.errorType.statusCode e, [], 1, []⟩
      | .ok r => ⟨.ok ⟨req.text, r.results, r.results.length⟩, [], 1, []⟩

/-- Modelled from the spec (§4.4 and §8): the transport-header rendering of a
duration reports whole milliseconds, truncating - the testable property
"tokenization durations 10ms and 21ms report 15ms (truncated from 15.5ms)"
fixes this granularity. The rendering itself (`HeaderMap::from(metadata)` in
the router's lib.rs) is not part of the given source. -/
def durationAsMillis (nanos : Nat) : Nat := nanos / 1000000

/-- Nanoseconds of a whole number of milliseconds, as `Duration::from_millis`
would produce. -/
def msNanos (ms : Nat) : Nat := ms * 1000000

/-- Collecting a fan-out whose first item succeeded defers to the rest. -/
theorem collectResults_cons_ok {A : Type} (a : A) (tl : List (Except ErrorResponse A)) :
    collectResults (Except.ok a :: tl) = (collectResults tl).map (fun l => a :: l) := by
  rcases h : collectResults tl with e | l <;> simp [collectResults, h, Except.map]

/-- Collecting fan-out results succeeds exactly when every per-item call
succeeded, and then returns all results in input order. -/
theorem collectResults_ok_iff {A : Type} {xs : List (Except ErrorResponse A)} {rs : List A} :
    collectResults xs = .ok rs ↔ xs = rs.map Except.ok := by
  constructor
  · intro h
    induction xs generalizing rs with
    | nil =>
      simp only [collectResults] at h
      rw [← Except.ok.inj h]
      rfl
    | cons x tl ih =>
      cases x with
      | error e => exact absurd h (by simp [collectResults])
      | ok a =>
        rw [collectResults_cons_ok] at h
        rcases h2 : collectResults tl with e | l
        · rw [h2] at h
          exact absurd h (by simp [Except.map])
        · rw [h2] at h
          simp only [Except.map] at h
          rw [← Except.ok.inj h, List.map_cons, ← ih h2]
  · intro h
    subst h
    induction rs with
    | nil => rfl
    | cons b rs' ih => rw [List.map_cons, collectResults_cons_ok, ih]; rfl

/-- Collecting fan-out results fails on the first failed item in input order:
all earlier items succeeded and the whole aggregate carries that item's
error. -/
theorem collectResults_error_first {A : Type} {xs : List (Except ErrorResponse A)}
    {e : ErrorResponse} (h : collectResults xs = .error e) :
    ∃ k : Nat, xs[k]? = some (Except.error e) ∧
      ∀ j : Nat, j < k → ∃ a : A, xs[j]? = some (Except.ok a) := by
  induction xs generalizing e with
  | nil => exact absurd h (by simp [collectResults])
  | cons x tl ih =>
    cases x with
    | error e' =>
      have he : e' = e := by
        have h0 : (Except.error e' : Except ErrorResponse (List A)) = .error e := h
        exact Except.error.inj h0
      subst he
      exact ⟨0, by simp, fun j hj => absurd hj (Nat.not_lt_zero j)⟩
    | ok a =>
      rw [collectResults_cons_ok] at h
      have h' : collectResults tl = .error e := by
        rcases h2 : collectResults tl with e2 | l
        · rw [h2] at h
          simpa [Except.map] using h
        · rw [h2] at h
          simp [Except.map] at h
      obtain ⟨k, hk, hj⟩ := ih h'
      refine ⟨k + 1, by simpa using hk, fun j hjlt => ?_⟩
      cases j with
      | zero => exact ⟨a, by simp⟩
      | succ j' =>
        obtain ⟨b, hb⟩ := hj j' (Nat.lt_of_succ_lt_succ hjlt)
        exact ⟨b, by simpa using hb⟩

/-- A list of fan-out results containing a failure never collects to a
success. -/
theorem collectResults_isError {A : Type} {xs : List (Except ErrorResponse A)}
    {e : ErrorResponse} (h : Except.error e ∈ xs) :
    ∃ e', collectResults xs = .error e' := by
  rcases h2 : collectResults xs with e' | rs
  · exact ⟨e', rfl⟩
  · exfalso
    rw [collectResults_ok_iff] at h2
    rw [h2] at h
    obtain ⟨a, _, ha⟩ := List.mem_map.mp h
    exact Except.noConfusion ha

/-- The accumulation loops compute the sum of the mapped values. -/
theorem sumBy_eq_sum_map {A : Type} (f : A → Nat) (l : List A) :
    sumBy f l = (l.map f).sum := by
  have aux : ∀ (l : List A) (n : Nat),
      l.foldl (fun acc r => acc + f r) n = n + (l.map f).sum := by
    intro l
    induction l with
    | nil => intro n; simp
    | cons x tl ih =>
      intro n
      simp only [List.foldl_cons, List.map_cons, List.sum_cons, ih]
      omega
  simpa [sumBy] using aux l 0

/-- Writing one task's outcome preserves the number of slots. -/
theorem length_writeSlot {A : Type} (tasks : List A) (slots : List (Option A)) (k : Nat) :
    (writeSlot tasks slots k).length = slots.length := by
  unfold writeSlot
  split <;> simp

/-- Completion events preserve the number of slots. -/
theorem length_foldl_writeSlot {A : Type} (tasks : List A) :
    ∀ (order : List Nat) (slots : List (Option A)),
      (order.foldl (writeSlot tasks) slots).length = slots.length := by
  intro order
  induction order with
  | nil => intro slots; rfl
  | cons k rest ih => intro slots; simp [List.foldl_cons, ih, length_writeSlot]

/-- A slot whose task never completes is left untouched. -/
theorem getElem?_foldl_writeSlot_not_mem {A : Type} (tasks : List A) {i : Nat} :
    ∀ {order : List Nat} (slots : List (Option A)), i ∉ order →
      (order.foldl (writeSlot tasks) slots)[i]? = slots[i]? := by
  intro order
  induction order with
  | nil => intro slots _; rfl
  | cons k rest ih =>
    intro slots hmem
    have hk : i ≠ k := fun h => hmem (h ▸ List.mem_cons_self k rest)
    have hrest : i ∉ rest := fun h => hmem (List.mem_cons_of_mem k h)
    rw [List.foldl_cons, ih _ hrest]
    unfold writeSlot
    split
    · exact List.getElem?_set_ne hk.symm
    · rfl

/-- Once a task has completed, its own slot holds its own outcome, whatever
the completion order of the other tasks. -/
theorem getElem?_foldl_writeSlot_mem {A : Type} (tasks : List A) {i : Nat} {v : A} :
    ∀ {order : List Nat} (slots : List (Option A)), slots.length = tasks.length →
      i ∈ order → tasks[i]? = some v →
      (order.foldl (writeSlot tasks) slots)[i]? = some (some v) := by
  intro order
  induction order with
  | nil => intro slots _ hi _; exact absurd hi (List.not_mem_nil i)
  | cons k rest ih =>
    intro slots hlen hi hv
    by_cases hmem : i ∈ rest
    · exact ih _ (by rw [length_writeSlot]; exact hlen) hmem hv
    · have hik : i = k := by
        rcases List.mem_cons.mp hi with h | h
        · exact h
        · exact absurd h hmem
      subst hik
      rw [List.foldl_cons, getElem?_foldl_writeSlot_not_mem tasks _ hmem]
      have hlt : i < tasks.length := (List.getElem?_eq_some.mp hv).1
      unfold writeSlot
      rw [hv]
      exact List.getElem?_set_self (by omega)

/-- The gather of `join_all` returns every outcome in its own input position
as soon as every task has completed, independently of completion order. -/
theorem joinAllExec_eq_of_perm {A : Type} (tasks : List A) (order : List Nat)
    (h : order.Perm (List.range tasks.length)) :
    joinAllExec tasks order = some tasks := by
  have hmem : ∀ i, i < tasks.length → i ∈ order := by
    intro i hi
    exact h.mem_iff.mpr (List.mem_range.mpr hi)
  have hgather : gatherExec tasks order = tasks.map some := by
    apply List.ext_getElem?
    intro n
    by_cases hn : n < tasks.length
    · have hv : tasks[n]? = some tasks[n] := List.getElem?_eq_getElem hn
      rw [gatherExec, getElem?_foldl_writeSlot_mem tasks _ (by simp) (hmem n hn) hv]
      rw [List.getElem?_map, hv]
      rfl
    · have h1 : (gatherExec tasks order)[n]? = none := by
        apply List.getElem?_eq_none
        rw [gatherExec, length_foldl_writeSlot]
        simpa using Nat.le_of_not_lt hn
      have h2 : (tasks.map some)[n]? = none := by
        apply List.getElem?_eq_none
        simpa using Nat.le_of_not_lt hn
      rw [h1, h2]
  have hallSome : ∀ (l : List A), allSome (l.map some) = some l := by
    intro l
    induction l with
    | nil => rfl
    | cons x tl ih => simp [allSome, ih]
  rw [joinAllExec, hgather, hallSome]

/-- Characterization of the checked `u64` division. -/
theorem rustDiv_eq_some {a b c : Nat} : rustDiv a b = some c ↔ b ≠ 0 ∧ c = a / b := by
  unfold rustDiv
  split
  · next h => simp [h]
  · next h =>
    constructor
    · intro hc
      exact ⟨h, (Option.some.inj hc).symm⟩
    · rintro ⟨_, rfl⟩
      rfl

/-- A fan-out whose calls all succeeded records no failure counter. -/
theorem inferFailureEvents_map_ok {A : Type} (rs : List A) :
    inferFailureEvents (rs.map Except.ok) = [] := by
  induction rs with
  | nil => rfl
  | cons x tl ih => simp [inferFailureEvents, List.filterMap_cons]

/-- Only failure counters appear among the collaborator's recorded events. -/
theorem mem_inferFailureEvents {A : Type} {l : List (Except ErrorResponse A)}
    {x : MetricEvent} (h : x ∈ inferFailureEvents l) : x = .inferFailure := by
  obtain ⟨r, _, hr⟩ := List.mem_filterMap.mp h
  cases r with
  | error e => exact (Option.some.inj hr).symm
  | ok a => exact Option.noConfusion hr

/-- A failed call is recorded as a failure counter. -/
theorem inferFailure_mem_of_error {A : Type} {l : List (Except ErrorResponse A)}
    {e : ErrorResponse} (h : Except.error e ∈ l) :
    MetricEvent.inferFailure ∈ inferFailureEvents l :=
  List.mem_filterMap.mpr ⟨_, h, rfl⟩

/-- An oversized batch is rejected with `Validation` (status 413) before any
dispatch: no inference call, no success counter, no surface rendered. -/
theorem runBatch_oversized {ItemOut Resp : Type} {maxSize : Nat}
    {items : List (Except ErrorResponse ItemOut)} {computeChars : Nat}
    {tokens tok que inf : ItemOut → Nat} {mkResponse : List ItemOut → Resp}
    (h : items.length > maxSize) :
    runBatch maxSize items computeChars tokens tok que inf mkResponse =
      ⟨.err 413 (batchSizeError items.length maxSize),
        [.requestCount "batch", .requestFailure "batch_size"], 0, []⟩ := by
  simp only [runBatch]
  rw [if_pos h]
  rfl

/-- Fail-fast: a batch containing a failed item fails as a whole with the
first failed item's error; no success counter is recorded and no surface is
rendered, while all items were dispatched. -/
theorem runBatch_failfast {ItemOut Resp : Type} {maxSize : Nat}
    {items : List (Except ErrorResponse ItemOut)} {computeChars : Nat}
    {tokens tok que inf : ItemOut → Nat} {mkResponse : List ItemOut → Resp}
    {e : ErrorResponse} (hmem : Except.error e ∈ items)
    (hsize : ¬ items.length > maxSize) :
    ∃ e' : ErrorResponse, ∃ k : Nat,
      items[k]? = some (Except.error e') ∧
      (∀ j : Nat, j < k → ∃ a : ItemOut, items[j]? = some (Except.ok a)) ∧
      runBatch maxSize items computeChars tokens tok que inf mkResponse =
        ⟨.err e'.errorType.statusCode e',
          [MetricEvent.requestCount "batch"] ++ inferFailureEvents items,
          items.length, []⟩ := by
  obtain ⟨e', he'⟩ := collectResults_isError hmem
  obtain ⟨k, hk, hj⟩ := collectResults_error_first he'
  refine ⟨e', k, hk, hj, ?_⟩
  simp only [runBatch]
  rw [if_neg hsize, he']

/-- A batch whose calls all succeeded, within the size bound and non-empty,
responds from the per-item outputs in input order, with averaged (truncated)
durations and summed token counts, records the success counter and renders
all three surfaces. -/
theorem runBatch_success {ItemOut Resp : Type} {maxSize : Nat}
    {items : List (Except ErrorResponse ItemOut)} {computeChars : Nat}
    {tokens tok que inf : ItemOut → Nat} {mkResponse : List ItemOut → Resp}
    {rs : List ItemOut} (hrs : collectResults items = .ok rs)
    (hsize : ¬ items.length > maxSize) (hne : items.length ≠ 0) :
    runBatch maxSize items computeChars tokens tok que inf mkResponse =
      ⟨.ok (mkResponse rs,
          ⟨computeChars, sumBy tokens rs, sumBy tok rs / items.length,
            sumBy que rs / items.length, sumBy inf rs / items.length⟩),
        [MetricEvent.requestCount "batch", MetricEvent.requestSuccess "batch"],
        items.length,
        [.traceSpan, .metricObservations, .transportHeaders]⟩ := by
  have hitems : items = rs.map Except.ok := collectResults_ok_iff.mp hrs
  simp only [runBatch]
  rw [if_neg hsize, hrs]
  simp only [rustDiv, if_neg hne]
  rw [hitems, inferFailureEvents_map_ok]
  rfl

/-- Inversion of a successful batch run: the per-item calls all succeeded,
the batch was non-empty and within bounds, and the response and metadata are
determined by the per-item outputs. -/
theorem runBatch_ok_inv {ItemOut Resp : Type} {maxSize : Nat}
    {items : List (Except ErrorResponse ItemOut)} {computeChars : Nat}
    {tokens tok que inf : ItemOut → Nat} {mkResponse : List ItemOut → Resp}
    {resp : Resp} {md : ResponseMetadata}
    (h : (runBatch maxSize items computeChars tokens tok que inf mkResponse).result
        = .ok (resp, md)) :
    ∃ rs : List ItemOut, collectResults items = .ok rs ∧ items.length ≠ 0 ∧
      ¬ items.length > maxSize ∧ resp = mkResponse rs ∧
      md = ⟨computeChars, sumBy tokens rs, sumBy tok rs / items.length,
        sumBy que rs / items.length, sumBy inf rs / items.length⟩ := by
  simp only [runBatch] at h
  split at h
  · simp at h
  · next hsize =>
    split at h
    · simp at h
    · next rs hrs =>
      split at h
      · next tokAvg queAvg infAvg htok hque hinf =>
        obtain ⟨hne, htokv⟩ := rustDiv_eq_some.mp htok
        obtain ⟨_, hquev⟩ := rustDiv_eq_some.mp hque
        obtain ⟨_, hinfv⟩ := rustDiv_eq_some.mp hinf
        have h' : RunResult.ok (mkResponse rs,
            (⟨computeChars, sumBy tokens rs, tokAvg, queAvg, infAvg⟩ : ResponseMetadata))
            = RunResult.ok (resp, md) := h
        obtain ⟨h1, h2⟩ := Prod.mk.inj (RunResult.ok.inj h')
        refine ⟨rs, hrs, hne, hsize, h1.symm, ?_⟩
        rw [← h2, htokv, hquev, hinfv]
      · simp at h

/-- Inversion of a failed batch run: the error is either the validation
rejection of an oversized batch or the error of one of the items. -/
theorem runBatch_err_inv {ItemOut Resp : Type} {maxSize : Nat}
    {items : List (Except ErrorResponse ItemOut)} {computeChars : Nat}
    {tokens tok que inf : ItemOut → Nat} {mkResponse : List ItemOut → Resp}
    {st : Nat} {e : ErrorResponse}
    (h : (runBatch maxSize items computeChars tokens tok que inf mkResponse).result
        = .err st e) :
    (e.errorType = .validation ∧ st = 413) ∨
      (st = e.errorType.statusCode ∧ ∃ k : Nat, items[k]? = some (Except.error e)) := by
  simp only [runBatch] at h
  split at h
  · have h' : RunResult.err (A := Resp × ResponseMetadata)
        ErrorType.validation.statusCode (batchSizeError items.length maxSize)
        = RunResult.err st e := h
    obtain ⟨h1, h2⟩ := RunResult.err.inj h'
    left
    rw [← h2, ← h1]
    exact ⟨rfl, rfl⟩
  · split at h
    · next e' he' =>
      have h' : RunResult.err (A := Resp × ResponseMetadata)
          e'.errorType.statusCode e' = RunResult.err st e := h
      obtain ⟨h1, h2⟩ := RunResult.err.inj h'
      right
      obtain ⟨k, hk, _⟩ := collectResults_error_first he'
      exact ⟨h2 ▸ h1.symm, k, h2 ▸ hk⟩
    · split at h
      · simp at h
      · simp at h

/-- One spec-side element conversion agrees with deserializing the element as
`Vec<String>` followed by `sequence_from_vec`. -/
theorem specElemToSequence_eq (e : Json) :
    specElemToSequence e =
      match e.asVecString with
      | .error err => .error err
      | .ok v => sequenceFromVec v := by
  rcases h : e.asVecString with err | v
  · simp [specElemToSequence, h, Bind.bind, Except.bind]
  · simp only [specElemToSequence, h, Bind.bind, Except.bind]
    match v with
    | [] => rfl
    | [a] => rfl
    | [a, b] => rfl
    | a :: b :: c :: tl => rfl

/-- The batch-mode tail loop is the spec's in-order conversion of the
remaining top-level elements. -/
theorem batchRest_eq_specConvertAll (es : List Json) :
    batchRest es = specConvertAll es := by
  induction es with
  | nil => rfl
  | cons e rest ih =>
    show batchRest (e :: rest) = specConvertAll (e :: rest)
    rw [show specConvertAll (e :: rest)
        = (do
            let s ← specElemToSequence e
            let tl ← specConvertAll rest
            pure (s :: tl)) from rfl]
    rw [← ih, specElemToSequence_eq]
    rcases h : e.asVecString with err | v
    · simp [batchRest, h, Bind.bind, Except.bind]
    · simp only [batchRest, h, Bind.bind, Except.bind]

/-- Flat-sequence mode of the visitor agrees with the spec's flat mode. -/
theorem visitSeq_str_cons (s0 : String) (rest : List Json) :
    visitSeq (Json.str s0 :: rest) = specFlat s0 rest := by
  match rest with
  | [] => rfl
  | [e1] =>
    have hred : visitSeq (Json.str s0 :: [e1])
        = (match e1.asString with
           | .error err => .error err
           | .ok second => .ok (.single (.pair s0 second))) := rfl
    rw [hred]
    rcases h1 : e1.asString with err | s1
    · simp [specFlat, h1, Bind.bind, Except.bind]
    · simp [specFlat, h1, Bind.bind, Except.bind, Pure.pure, Except.pure]
  | e1 :: e2 :: rest3 =>
    have hred : visitSeq (Json.str s0 :: e1 :: e2 :: rest3)
        = (match e1.asString with
           | .error err => .error err
           | .ok _ =>
             match e2.asString with
             | .error err => .error err
             | .ok _ => .error (.invalidLength 3)) := rfl
    rw [hred]
    rcases h1 : e1.asString with err | s1
    · simp [specFlat, h1, Bind.bind, Except.bind]
    · rcases h2 : e2.asString with err2 | s2 <;>
        simp [specFlat, h1, h2, Bind.bind, Except.bind, throw, throwThe,
          MonadExceptOf.throw]

/-- Batch mode of the visitor agrees with the spec's batch mode. -/
theorem visitSeq_arr_cons (xs rest : List Json) :
    visitSeq (Json.arr xs :: rest) = specDecode (.arr (.arr xs :: rest)) := by
  rcases hv : (Json.arr xs).asVecString with err | v
  · have hl : visitSeq (Json.arr xs :: rest) = .error .invalidType := by
      have hint : (Json.arr xs).asInternal = .error .invalidType := by
        simp [Json.asInternal, Json.asString, hv]
      simp [visitSeq, hint]
    have hr : specDecode (.arr (.arr xs :: rest)) = .error .invalidType := by
      simp [specDecode, hv]
    rw [hl, hr]
  · have hint : (Json.arr xs).asInternal = .ok (.multiple v) := by
      simp [Json.asInternal, Json.asString, hv]
    have hl : visitSeq (Json.arr xs :: rest)
        = (match sequenceFromVec v with
           | .error err => .error err
           | .ok s =>
             match batchRest rest with
             | .error err => .error err
             | .ok b => .ok (.batch (s :: b))) := by
      simp [visitSeq, hint]
    have hr : specDecode (.arr (.arr xs :: rest))
        = (do
            let seqs ← specConvertAll (Json.arr xs :: rest)
            pure (PredictInput.batch seqs) : Except DeError PredictInput) := by
      simp [specDecode, hv]
    rw [hl, hr]
    rw [show specConvertAll (Json.arr xs :: rest)
        = (do
            let s ← specElemToSequence (Json.arr xs)
            let tl ← specConvertAll rest
            pure (s :: tl)) from rfl]
    rw [← batchRest_eq_specConvertAll, specElemToSequence_eq, hv]
    rcases hs : sequenceFromVec v with err2 | s
    · simp [hs, Bind.bind, Except.bind]
    · rcases hb : batchRest rest with err3 | b <;>
        simp [hs, hb, Bind.bind, Except.bind, Pure.pure, Except.pure]

/-- A batch produced by the visitor always holds its first sequence: it is
never empty. -/
theorem visitSeq_batch_ne_nil {es : List Json} {b : List Sequence}
    (h : visitSeq es = .ok (.batch b)) : b ≠ [] := by
  match es with
  | [] => exact absurd h (by simp [visitSeq])
  | e0 :: rest =>
    simp only [visitSeq] at h
    split at h
    · exact absurd h (by simp)
    · split at h
      · simp at h
      · split at h
        · exact absurd h (by simp)
        · split at h
          · simp at h
          · split at h
            · exact absurd h (by simp)
            · simp at h
    · split at h
      · exact absurd h (by simp)
      · split at h
        · exact absurd h (by simp)
        · rw [← PredictInput.batch.inj (Except.ok.inj h)]
          exact List.cons_ne_nil _ _

/-- C2 (amended): `PredictInput::deserialize` implements exactly the spec's
lookahead decision procedure, with one amendment: in flat-sequence mode a
present second or third element must itself parse as a string - the result is
`invalid_length 3` only when a third string element is present, and that
element's type error otherwise (similarly, a non-array element after an
array-of-strings first element is a type error). Batches are never empty. -/
theorem c2_predict_input_grammar :
    (∀ j : Json, PredictInput.deserialize j = specDecode j) ∧
    (∀ (j : Json) (b : List Sequence),
      PredictInput.deserialize j = .ok (.batch b) → b ≠ []) := by
  constructor
  · intro j
    match j with
    | .str s => rfl
    | .num n => rfl
    | .boolean bb => rfl
    | .null => rfl
    | .obj f => rfl
    | .arr [] => rfl
    | .arr (e0 :: rest) =>
      show visitSeq (e0 :: rest) = specDecode (.arr (e0 :: rest))
      match e0 with
      | .str s0 => exact visitSeq_str_cons s0 rest
      | .arr xs => exact visitSeq_arr_cons xs rest
      | .num n => rfl
      | .boolean bb => rfl
      | .null => rfl
      | .obj f => rfl
  · intro j b h
    match j with
    | .str s => simp [PredictInput.deserialize] at h
    | .num n => simp [PredictInput.deserialize] at h
    | .boolean bb => simp [PredictInput.deserialize] at h
    | .null => simp [PredictInput.deserialize] at h
    | .obj f => simp [PredictInput.deserialize] at h
    | .arr es => exact visitSeq_batch_ne_nil h

/-- Witness for C2 at a concrete mixed batch input
`[["a"], ["a", "b"]]`, which decodes to the never-empty
`Batch([Single "a", Pair "a" "b"])`. -/
theorem c2_predict_input_grammar_witness :
    PredictInput.deserialize
        (Json.arr [Json.arr [Json.str "a"], Json.arr [Json.str "a", Json.str "b"]])
      = specDecode
        (Json.arr [Json.arr [Json.str "a"], Json.arr [Json.str "a", Json.str "b"]]) ∧
    ([Sequence.single "a", Sequence.pair "a" "b"] : List Sequence) ≠ [] :=
  ⟨c2_predict_input_grammar.1 _,
    c2_predict_input_grammar.2
      (Json.arr [Json.arr [Json.str "a"], Json.arr [Json.str "a", Json.str "b"]])
      [Sequence.single "a", Sequence.pair "a" "b"] rfl⟩

/-- C2 counterexample: on `["a", "b", true]` the deserializer commits to flat
mode and fails deserializing the non-string third element as `String` - a
type error, not the claimed `invalid_length 3`. -/
theorem c2_counterexample_nonstring_third :
    PredictInput.deserialize (Json.arr [Json.str "a", Json.str "b", Json.boolean true])
        = .error .invalidType ∧
    PredictInput.deserialize (Json.arr [Json.str "a", Json.str "b", Json.boolean true])
        ≠ .error (.invalidLength 3) := by
  constructor
  · rfl
  · have h1 : PredictInput.deserialize
        (Json.arr [Json.str "a", Json.str "b", Json.boolean true])
        = .error .invalidType := rfl
    rw [h1]
    simp

/-- Claim-level reading of the fail-fast batch semantics, proved once for the
shared batch orchestration: with a failed item present, the run fails with the
first failed item's error, no success counter is recorded, and the failure
counter is. -/
theorem runBatch_failfast_events {ItemOut Resp : Type} {maxSize : Nat}
    {items : List (Except ErrorResponse ItemOut)} {computeChars : Nat}
    {tokens tok que inf : ItemOut → Nat} {mkResponse : List ItemOut → Resp}
    {e : ErrorResponse} (hmem : Except.error e ∈ items)
    (hsize : ¬ items.length > maxSize) :
    ∃ e' : ErrorResponse, ∃ k : Nat,
      items[k]? = some (Except.error e') ∧
      (∀ j : Nat, j < k → ∃ a : ItemOut, items[j]? = some (Except.ok a)) ∧
      (runBatch maxSize items computeChars tokens tok que inf mkResponse).result
          = .err e'.errorType.statusCode e' ∧
      (∀ m : String, MetricEvent.requestSuccess m
          ∉ (runBatch maxSize items computeChars tokens tok que inf mkResponse).events) ∧
      MetricEvent.inferFailure
          ∈ (runBatch maxSize items computeChars tokens tok que inf mkResponse).events := by
  obtain ⟨e', k, hk, hj, hrun⟩ := runBatch_failfast hmem hsize
  refine ⟨e', k, hk, hj, ?_, ?_, ?_⟩
  · rw [hrun]
  · intro m hm
    rw [hrun] at hm
    rcases List.mem_append.mp hm with hl | hr
    · rcases List.mem_singleton.mp hl with h
      exact MetricEvent.noConfusion h
    · exact MetricEvent.noConfusion (mem_inferFailureEvents hr)
  · rw [hrun]
    exact List.mem_append.mpr (Or.inr (inferFailure_mem_of_error hmem))

/-- C3: on every batch endpoint, one failed item fails the whole operation
with the first failed item's error; every earlier item had succeeded and its
result is discarded - the run result is an error, never a partial response;
the success counter is not incremented and the (collaborator's) failure
counter is. Stated for `/predict`, `/embed`, `/embeddings` and `/rerank`. -/
theorem c3_failfast_batch :
    (∀ (free : Nat) (info : Info) (id2label : Nat → String) (oracle : PredictOracle)
      (t rsc : Bool) (inputs : List Sequence) (e : ErrorResponse),
      Except.error e ∈ inputs.map (fun s => predictInner id2label oracle s t rsc) →
      inputs.length ≤ info.maxClientBatchSize →
      ∃ e' : ErrorResponse, ∃ k : Nat,
        (inputs.map (fun s => predictInner id2label oracle s t rsc))[k]?
            = some (Except.error e') ∧
        (∀ j : Nat, j < k → ∃ a : PredictItemOut,
          (inputs.map (fun s => predictInner id2label oracle s t rsc))[j]?
              = some (Except.ok a)) ∧
        (predictHandler free info id2label oracle ⟨.batch inputs, t, rsc⟩).result
            = .err e'.errorType.statusCode e' ∧
        (∀ m : String, MetricEvent.requestSuccess m
            ∉ (predictHandler free info id2label oracle ⟨.batch inputs, t, rsc⟩).events) ∧
        MetricEvent.inferFailure
            ∈ (predictHandler free info id2label oracle ⟨.batch inputs, t, rsc⟩).events) ∧
    (∀ (free : Nat) (info : Info) (oracle : EmbedOracle) (t n : Bool)
      (inputs : List String) (e : ErrorResponse),
      Except.error e ∈ inputs.map (fun s => oracle s t n) →
      inputs.length ≤ info.maxClientBatchSize →
      ∃ e' : ErrorResponse, ∃ k : Nat,
        (inputs.map (fun s => oracle s t n))[k]? = some (Except.error e') ∧
        (∀ j : Nat, j < k → ∃ a : InferResponse,
          (inputs.map (fun s => oracle s t n))[j]? = some (Except.ok a)) ∧
        (embedHandler free info oracle ⟨.batch inputs, t, n⟩).result
            = .err e'.errorType.statusCode e' ∧
        (∀ m : String, MetricEvent.requestSuccess m
            ∉ (embedHandler free info oracle ⟨.batch inputs, t, n⟩).events) ∧
        MetricEvent.inferFailure
            ∈ (embedHandler free info oracle ⟨.batch inputs, t, n⟩).events) ∧
    (∀ (free : Nat) (info : Info) (oracle : EmbedOracle)
      (inputs : List String) (mo uo : Option String) (e : ErrorResponse),
      Except.error e ∈ inputs.map (fun s => oracle s false true) →
      inputs.length ≤ info.maxClientBatchSize →
      ∃ e' : ErrorResponse, ∃ k : Nat,
        (inputs.map (fun s => oracle s false true))[k]? = some (Except.error e') ∧
        (∀ j : Nat, j < k → ∃ a : InferResponse,
          (inputs.map (fun s => oracle s false true))[j]? = some (Except.ok a)) ∧
        (openaiHandler free info oracle ⟨.batch inputs, mo, uo⟩).result
            = .err e'.errorType.statusCode e' ∧
        (∀ m : String, MetricEvent.requestSuccess m
            ∉ (openaiHandler free info oracle ⟨.batch inputs, mo, uo⟩).events) ∧
        MetricEvent.inferFailure
            ∈ (openaiHandler free info oracle ⟨.batch inputs, mo, uo⟩).events) ∧
    (∀ (modelId q : String) (max : Nat) (oracle : PredictOracle) (t rsc rt : Bool)
      (texts : List String) (e : ErrorResponse),
      Except.error e ∈ texts.map (fun s => rerankInner oracle q s t rsc) →
      texts.length ≤ max →
      ∃ e' : ErrorResponse, ∃ k : Nat,
        (texts.map (fun s => rerankInner oracle q s t rsc))[k]?
            = some (Except.error e') ∧
        (∀ j : Nat, j < k → ∃ a : RerankItemOut,
          (texts.map (fun s => rerankInner oracle q s t rsc))[j]?
              = some (Except.ok a)) ∧
        (rerankHandler ⟨modelId, .reranker, max⟩ oracle ⟨q, texts, t, rsc, rt⟩).result
            = .err e'.errorType.statusCode e' ∧
        (∀ m : String, MetricEvent.requestSuccess m
            ∉ (rerankHandler ⟨modelId, .reranker, max⟩ oracle ⟨q, texts, t, rsc, rt⟩).events) ∧
        MetricEvent.inferFailure
            ∈ (rerankHandler ⟨modelId, .reranker, max⟩ oracle
                ⟨q, texts, t, rsc, rt⟩).events) := by
  refine ⟨?_, ?_, ?_, ?_⟩
  · intro free info id2label oracle t rsc inputs e hmem hsize
    simp only [predictHandler]
    exact runBatch_failfast_events hmem (by rw [List.length_map]; omega)
  · intro free info oracle t n inputs e hmem hsize
    simp only [embedHandler]
    exact runBatch_failfast_events hmem (by rw [List.length_map]; omega)
  · intro free info oracle inputs mo uo e hmem hsize
    simp only [openaiHandler]
    exact runBatch_failfast_events hmem (by rw [List.length_map]; omega)
  · intro modelId q max oracle t rsc rt texts e hmem hsize
    simp only [rerankHandler]
    exact runBatch_failfast_events hmem (by rw [List.length_map]; omega)

/-- Concrete always-failing oracle for the C3 witness. -/
def witnessFailOracle : EmbedOracle := fun _ _ _ => .error ⟨"boom", .backend⟩

/-- Witness for C3 at a concrete one-item `/embed` batch with a failing
collaborator. -/
theorem c3_failfast_batch_witness :
    ∃ e' : ErrorResponse, ∃ k : Nat,
      (["x"].map (fun s => witnessFailOracle s false true))[k]?
          = some (Except.error e') ∧
      (∀ j : Nat, j < k → ∃ a : InferResponse,
        (["x"].map (fun s => witnessFailOracle s false true))[j]?
            = some (Except.ok a)) ∧
      (embedHandler 0 ⟨"m", .embedding, 4⟩ witnessFailOracle
          ⟨.batch ["x"], false, true⟩).result = .err e'.errorType.statusCode e' ∧
      (∀ m : String, MetricEvent.requestSuccess m
          ∉ (embedHandler 0 ⟨"m", .embedding, 4⟩ witnessFailOracle
              ⟨.batch ["x"], false, true⟩).events) ∧
      MetricEvent.inferFailure
          ∈ (embedHandler 0 ⟨"m", .embedding, 4⟩ witnessFailOracle
              ⟨.batch ["x"], false, true⟩).events :=
  c3_failfast_batch.2.1 0 ⟨"m", .embedding, 4⟩ witnessFailOracle false true ["x"]
    ⟨"boom", .backend⟩ (by simp [witnessFailOracle]) (by decide)

/-- Pointwise reading of a fully successful fan-out: the call on input `i`
succeeded with the result stored at position `i`. -/
theorem map_eq_map_ok_getElem {A B : Type} {f : A → Except ErrorResponse B}
    {inputs : List A} {rs : List B} (hmap : inputs.map f = rs.map Except.ok)
    {i : Nat} {s : A} (hi : inputs[i]? = some s) :
    ∃ r : B, rs[i]? = some r ∧ f s = Except.ok r := by
  have h1 : (inputs.map f)[i]? = some (f s) := by
    rw [List.getElem?_map, hi]
    rfl
  rw [hmap, List.getElem?_map] at h1
  rcases hr : rs[i]? with _ | r
  · rw [hr] at h1
    exact Option.noConfusion h1
  · rw [hr] at h1
    exact ⟨r, rfl, (Option.some.inj h1).symm⟩

/-- C4: order preservation of the fan-out/gather. The gather writes each
task's outcome into its own slot, so the aggregate equals the task list for
every completion order; consequently, on a successful batch, `/embed` output
`i` is the embedding computed for input `i`, `/predict` output `i` is the
prediction list computed for input `i`, and each `/embeddings` data element
`i` carries the embedding of input `i` together with `index = i`. -/
theorem c4_batch_order_preserved :
    (∀ (tasks : List (Except ErrorResponse InferResponse)) (order : List Nat),
      order.Perm (List.range tasks.length) → joinAllExec tasks order = some tasks) ∧
    (∀ (free : Nat) (info : Info) (oracle : EmbedOracle) (t n : Bool)
      (inputs : List String) (out : EmbedResponse) (md : ResponseMetadata),
      (embedHandler free info oracle ⟨.batch inputs, t, n⟩).result = .ok (out, md) →
      out.length = inputs.length ∧
      (∀ (i : Nat) (s : String), inputs[i]? = some s →
        ∃ r : InferResponse, oracle s t n = .ok r ∧ out[i]? = some r.results)) ∧
    (∀ (free : Nat) (info : Info) (id2label : Nat → String) (oracle : PredictOracle)
      (t rsc : Bool) (inputs : List Sequence) (preds : List (List Prediction))
      (md : ResponseMetadata),
      (predictHandler free info id2label oracle ⟨.batch inputs, t, rsc⟩).result
          = .ok (.batch preds, md) →
      preds.length = inputs.length ∧
      (∀ (i : Nat) (s : Sequence), inputs[i]? = some s →
        ∃ io : PredictItemOut, predictInner id2label oracle s t rsc = .ok io ∧
          preds[i]? = some io.predictions)) ∧
    (∀ (free : Nat) (info : Info) (oracle : EmbedOracle) (inputs : List String)
      (mo uo : Option String) (out : OpenAICompatResponse) (md : ResponseMetadata),
      (openaiHandler free info oracle ⟨.batch inputs, mo, uo⟩).result = .ok (out, md) →
      out.data.length = inputs.length ∧
      (∀ (i : Nat) (s : String), inputs[i]? = some s →
        ∃ r : InferResponse, oracle s false true = .ok r ∧
          out.data[i]? = some ⟨"embedding", r.results, i⟩)) := by
  refine ⟨joinAllExec_eq_of_perm, ?_, ?_, ?_⟩
  · intro free info oracle t n inputs out md h
    simp only [embedHandler] at h
    obtain ⟨rs, hrs, _, _, hresp, _⟩ := runBatch_ok_inv h
    have hmap := collectResults_ok_iff.mp hrs
    have hlen : inputs.length = rs.length := by
      have hl := congrArg List.length hmap
      simpa using hl
    subst hresp
    refine ⟨by simp [hlen], ?_⟩
    intro i s hi
    obtain ⟨r, hri, hfs⟩ := map_eq_map_ok_getElem hmap hi
    refine ⟨r, hfs, ?_⟩
    rw [List.getElem?_map, hri]
    rfl
  · intro free info id2label oracle t rsc inputs preds md h
    simp only [predictHandler] at h
    obtain ⟨rs, hrs, _, _, hresp, _⟩ := runBatch_ok_inv h
    have hmap := collectResults_ok_iff.mp hrs
    have hlen : inputs.length = rs.length := by
      have hl := congrArg List.length hmap
      simpa using hl
    have hpreds : preds = rs.map PredictItemOut.predictions :=
      PredictResponse.batch.inj hresp
    subst hpreds
    refine ⟨by simp [hlen], ?_⟩
    intro i s hi
    obtain ⟨r, hri, hfs⟩ := map_eq_map_ok_getElem hmap hi
    refine ⟨r, hfs, ?_⟩
    rw [List.getElem?_map, hri]
    rfl
  · intro free info oracle inputs mo uo out md h
    simp only [openaiHandler] at h
    obtain ⟨rs, hrs, _, _, hresp, _⟩ := runBatch_ok_inv h
    have hmap := collectResults_ok_iff.mp hrs
    have hlen : inputs.length = rs.length := by
      have hl := congrArg List.length hmap
      simpa using hl
    subst hresp
    refine ⟨by simp [hlen], ?_⟩
    intro i s hi
    obtain ⟨r, hri, hfs⟩ := map_eq_map_ok_getElem hmap hi
    refine ⟨r, hfs, ?_⟩
    simp only [List.getElem?_map, List.getElem?_enum, hri]
    rfl

/-- Concrete embedding oracle for witnesses: the embedding of a text is its
length, as a one-component vector. -/
def witnessEmbedOracle : EmbedOracle := fun s _ _ =>
  .ok ⟨[(s.length : ℚ)], 2, 4, 6, 8⟩

/-- Witness for C4: the gather at a concrete out-of-order completion, and the
`/embeddings` batch at two concrete inputs. -/
theorem c4_batch_order_preserved_witness :
    (joinAllExec ([Except.ok (InferResponse.mk [(1 : ℚ)] 2 4 6 8),
        Except.ok (InferResponse.mk [(2 : ℚ)] 2 4 6 8)] :
          List (Except ErrorResponse InferResponse)) [1, 0]
      = some ([Except.ok (InferResponse.mk [(1 : ℚ)] 2 4 6 8),
        Except.ok (InferResponse.mk [(2 : ℚ)] 2 4 6 8)] :
          List (Except ErrorResponse InferResponse))) ∧
    ((OpenAICompatResponse.mk "list"
        [⟨"embedding", [(1 : ℚ)], 0⟩, ⟨"embedding", [(2 : ℚ)], 1⟩] "m" ⟨4, 4⟩).data.length
      = (["a", "bb"] : List String).length ∧
    (∀ (i : Nat) (s : String), (["a", "bb"] : List String)[i]? = some s →
      ∃ r : InferResponse, witnessEmbedOracle s false true = .ok r ∧
        (OpenAICompatResponse.mk "list"
          [⟨"embedding", [(1 : ℚ)], 0⟩, ⟨"embedding", [(2 : ℚ)], 1⟩] "m"
          ⟨4, 4⟩).data[i]? = some ⟨"embedding", r.results, i⟩)) :=
  ⟨c4_batch_order_preserved.1 _ [1, 0] (by decide),
    c4_batch_order_preserved.2.2.2 1 ⟨"m", .embedding, 4⟩ witnessEmbedOracle
      ["a", "bb"] none none
      (OpenAICompatResponse.mk "list"
        [⟨"embedding", [(1 : ℚ)], 0⟩, ⟨"embedding", [(2 : ℚ)], 1⟩] "m" ⟨4, 4⟩)
      (ResponseMetadata.mk 3 4 4 6 8) (by decide)⟩

/-- An element of a mapped list comes from an element of the original list. -/
theorem getElem?_map_eq_some {A B : Type} {f : A → B} {l : List A} {k : Nat} {y : B}
    (h : (l.map f)[k]? = some y) : ∃ x : A, l[k]? = some x ∧ f x = y := by
  rw [List.getElem?_map] at h
  rcases hx : l[k]? with _ | x
  · rw [hx] at h
    exact Option.noConfusion h
  · rw [hx] at h
    exact ⟨x, rfl, Option.some.inj h⟩

/-- C5 (amended): shape/size validation failures are returned before any
inference work, with zero inference calls dispatched. An oversized batch
fails with `Validation` (status 413) on all four batch paths; `/rerank`
against a non-reranker model fails once per request with a `Backend` error
(status 424) describing the mismatch, recording a single `model_type` failure
and dispatching nothing; a malformed `/vectors` body fails with a
`Validation` error carried with the literal status 400 (`BAD_REQUEST`), not
`Validation`'s mapped status 413, before any permit or inference work. -/
theorem c5_validation_before_dispatch :
    (∀ (free : Nat) (info : Info) (id2label : Nat → String) (oracle : PredictOracle)
      (t rsc : Bool) (inputs : List Sequence),
      inputs.length > info.maxClientBatchSize →
      predictHandler free info id2label oracle ⟨.batch inputs, t, rsc⟩ =
        ⟨.err 413 (batchSizeError inputs.length info.maxClientBatchSize),
          [.requestCount "batch", .requestFailure "batch_size"], 0, []⟩) ∧
    (∀ (free : Nat) (info : Info) (oracle : EmbedOracle) (t n : Bool)
      (inputs : List String),
      inputs.length > info.maxClientBatchSize →
      embedHandler free info oracle ⟨.batch inputs, t, n⟩ =
        ⟨.err 413 (batchSizeError inputs.length info.maxClientBatchSize),
          [.requestCount "batch", .requestFailure "batch_size"], 0, []⟩) ∧
    (∀ (free : Nat) (info : Info) (oracle : EmbedOracle) (inputs : List String)
      (mo uo : Option String),
      inputs.length > info.maxClientBatchSize →
      openaiHandler free info oracle ⟨.batch inputs, mo, uo⟩ =
        ⟨.err 413 (batchSizeError inputs.length info.maxClientBatchSize),
          [.requestCount "batch", .requestFailure "batch_size"], 0, []⟩) ∧
    (∀ (modelId : String) (max : Nat) (oracle : PredictOracle) (q : String)
      (texts : List String) (t rsc rt : Bool),
      texts.length > max →
      rerankHandler ⟨modelId, .reranker, max⟩ oracle ⟨q, texts, t, rsc, rt⟩ =
        ⟨.err 413 (batchSizeError texts.length max),
          [.requestCount "batch", .requestFailure "batch_size"], 0, []⟩) ∧
    (∀ (modelId : String) (max : Nat) (oracle : PredictOracle) (req : RerankRequest),
      rerankHandler ⟨modelId, .classifier, max⟩ oracle req =
        ⟨.err 424 ⟨"model is not a re-ranker model", .backend⟩,
          [.requestFailure "model_type"], 0, []⟩) ∧
    (∀ (modelId : String) (max : Nat) (oracle : PredictOracle) (req : RerankRequest),
      rerankHandler ⟨modelId, .embedding, max⟩ oracle req =
        ⟨.err 424 ⟨"model is not a classifier model", .backend⟩,
          [.requestFailure "model_type"], 0, []⟩) ∧
    (∀ (free : Nat) (oracle : EmbedOracle) (body : Json),
      parseWeaviateRequest body = none →
      weaviateHandler free oracle body =
        ⟨.err 400 ⟨"Invalid request body", .validation⟩, [], 0, []⟩) := by
  refine ⟨?_, ?_, ?_, ?_, fun _ _ _ _ => rfl, fun _ _ _ _ => rfl, ?_⟩
  · intro free info id2label oracle t rsc inputs h
    simp only [predictHandler]
    rw [runBatch_oversized (by rw [List.length_map]; omega)]
    simp
  · intro free info oracle t n inputs h
    simp only [embedHandler]
    rw [runBatch_oversized (by rw [List.length_map]; omega)]
    simp
  · intro free info oracle inputs mo uo h
    simp only [openaiHandler]
    rw [runBatch_oversized (by rw [List.length_map]; omega)]
    simp
  · intro modelId max oracle q texts t rsc rt h
    simp only [rerankHandler]
    rw [runBatch_oversized (by rw [List.length_map]; omega)]
    simp
  · intro free oracle body h
    simp only [weaviateHandler]
    rw [h]

/-- C5 counterexample: the claim as stated says a malformed `/vectors` body
carries `Validation`'s mapped status; the source hard-codes
`StatusCode::BAD_REQUEST` (400) there, while `Validation` maps to 413. -/
theorem c5_counterexample_vectors_status :
    (weaviateHandler 1 witnessEmbedOracle (Json.obj [])).result
        = .err 400 ⟨"Invalid request body", .validation⟩ ∧
    ErrorType.validation.statusCode = 413 ∧ (400 : Nat) ≠ 413 :=
  ⟨rfl, rfl, by decide⟩

/-- Witness for C5 at a concrete oversized `/embed` batch and a concrete
malformed `/vectors` body. -/
theorem c5_validation_before_dispatch_witness :
    embedHandler 0 ⟨"m", .embedding, 1⟩ witnessEmbedOracle
        ⟨.batch ["a", "b"], false, true⟩ =
      ⟨.err 413 (batchSizeError 2 1),
        [.requestCount "batch", .requestFailure "batch_size"], 0, []⟩ ∧
    weaviateHandler 1 witnessEmbedOracle (Json.boolean true) =
      ⟨.err 400 ⟨"Invalid request body", .validation⟩, [], 0, []⟩ :=
  ⟨c5_validation_before_dispatch.2.1 0 ⟨"m", .embedding, 1⟩ witnessEmbedOracle
      false true ["a", "b"] (by decide),
    c5_validation_before_dispatch.2.2.2.2.2.2 1 witnessEmbedOracle
      (Json.boolean true) rfl⟩

/-- C6: admission policy. Every lone request (`/predict`, `/embed`,
`/embeddings`, `/vectors`) takes the non-blocking `try_acquire` and fails
with `Overloaded` (status 429) when no budget slot is free; every per-item
task of a batch request takes the blocking `acquire`, so a batch run does not
depend on the free-slot count at all and an `Overloaded` failure can only
come from the collaborator itself, never from batch admission. -/
theorem c6_admission_policy :
    (∀ (info : Info) (id2label : Nat → String) (oracle : PredictOracle)
      (t rsc : Bool) (s : Sequence),
      (predictHandler 0 info id2label oracle ⟨.single s, t, rsc⟩).result
          = .err 429 ⟨"Model is overloaded", .overloaded⟩) ∧
    (∀ (info : Info) (oracle : EmbedOracle) (t n : Bool) (s : String),
      (embedHandler 0 info oracle ⟨.single s, t, n⟩).result
          = .err 429 ⟨"Model is overloaded", .overloaded⟩) ∧
    (∀ (info : Info) (oracle : EmbedOracle) (s : String) (mo uo : Option String),
      (openaiHandler 0 info oracle ⟨.single s, mo, uo⟩).result
          = .err 429 ⟨"Model is overloaded", .overloaded⟩) ∧
    (∀ (oracle : EmbedOracle) (body : Json) (req : EmbedWeaviateRequest),
      parseWeaviateRequest body = some req →
      (weaviateHandler 0 oracle body).result
          = .err 429 ⟨"Model is overloaded", .overloaded⟩) ∧
    (∀ (free free' : Nat) (info : Info) (id2label : Nat → String)
      (oracle : PredictOracle) (t rsc : Bool) (inputs : List Sequence),
      predictHandler free info id2label oracle ⟨.batch inputs, t, rsc⟩
        = predictHandler free' info id2label oracle ⟨.batch inputs, t, rsc⟩) ∧
    (∀ (free free' : Nat) (info : Info) (oracle : EmbedOracle) (t n : Bool)
      (inputs : List String),
      embedHandler free info oracle ⟨.batch inputs, t, n⟩
        = embedHandler free' info oracle ⟨.batch inputs, t, n⟩) ∧
    (∀ (free free' : Nat) (info : Info) (oracle : EmbedOracle)
      (inputs : List String) (mo uo : Option String),
      openaiHandler free info oracle ⟨.batch inputs, mo, uo⟩
        = openaiHandler free' info oracle ⟨.batch inputs, mo, uo⟩) ∧
    (∀ (free : Nat) (info : Info) (id2label : Nat → String) (oracle : PredictOracle)
      (t rsc : Bool) (inputs : List Sequence),
      (∀ (x : Sequence) (e' : ErrorResponse),
        predictInner id2label oracle x t rsc = .error e' → e'.errorType ≠ .overloaded) →
      ∀ (st : Nat) (e : ErrorResponse),
        (predictHandler free info id2label oracle ⟨.batch inputs, t, rsc⟩).result
            = .err st e → e.errorType ≠ .overloaded) ∧
    (∀ (free : Nat) (info : Info) (oracle : EmbedOracle) (t n : Bool)
      (inputs : List String),
      (∀ (x : String) (e' : ErrorResponse),
        oracle x t n = .error e' → e'.errorType ≠ .overloaded) →
      ∀ (st : Nat) (e : ErrorResponse),
        (embedHandler free info oracle ⟨.batch inputs, t, n⟩).result
            = .err st e → e.errorType ≠ .overloaded) ∧
    (∀ (free : Nat) (info : Info) (oracle : EmbedOracle) (inputs : List String)
      (mo uo : Option String),
      (∀ (x : String) (e' : ErrorResponse),
        oracle x false true = .error e' → e'.errorType ≠ .overloaded) →
      ∀ (st : Nat) (e : ErrorResponse),
        (openaiHandler free info oracle ⟨.batch inputs, mo, uo⟩).result
            = .err st e → e.errorType ≠ .overloaded) ∧
    (∀ (modelId : String) (max : Nat) (oracle : PredictOracle) (q : String)
      (texts : List String) (t rsc rt : Bool),
      (∀ (x : String) (e' : ErrorResponse),
        rerankInner oracle q x t rsc = .error e' → e'.errorType ≠ .overloaded) →
      ∀ (st : Nat) (e : ErrorResponse),
        (rerankHandler ⟨modelId, .reranker, max⟩ oracle ⟨q, texts, t, rsc, rt⟩).result
            = .err st e → e.errorType ≠ .overloaded) := by
  refine ⟨fun _ _ _ _ _ _ => rfl, fun _ _ _ _ _ => rfl, fun _ _ _ _ _ => rfl,
    ?_, fun _ _ _ _ _ _ _ _ => rfl, fun _ _ _ _ _ _ _ => rfl,
    fun _ _ _ _ _ _ _ => rfl, ?_, ?_, ?_, ?_⟩
  · intro oracle body req hp
    simp only [weaviateHandler]
    rw [hp]
    rfl
  · intro free info id2label oracle t rsc inputs hnobl st e hres
    simp only [predictHandler] at hres
    rcases runBatch_err_inv hres with ⟨hv, _⟩ | ⟨_, k, hk⟩
    · rw [hv]
      exact fun hh => ErrorType.noConfusion hh
    · obtain ⟨x, _, hfx⟩ := getElem?_map_eq_some hk
      exact hnobl x e hfx
  · intro free info oracle t n inputs hnobl st e hres
    simp only [embedHandler] at hres
    rcases runBatch_err_inv hres with ⟨hv, _⟩ | ⟨_, k, hk⟩
    · rw [hv]
      exact fun hh => ErrorType.noConfusion hh
    · obtain ⟨x, _, hfx⟩ := getElem?_map_eq_some hk
      exact hnobl x e hfx
  · intro free info oracle inputs mo uo hnobl st e hres
    simp only [openaiHandler] at hres
    rcases runBatch_err_inv hres with ⟨hv, _⟩ | ⟨_, k, hk⟩
    · rw [hv]
      exact fun hh => ErrorType.noConfusion hh
    · obtain ⟨x, _, hfx⟩ := getElem?_map_eq_some hk
      exact hnobl x e hfx
  · intro modelId max oracle q texts t rsc rt hnobl st e hres
    simp only [rerankHandler] at hres
    rcases runBatch_err_inv hres with ⟨hv, _⟩ | ⟨_, k, hk⟩
    · rw [hv]
      exact fun hh => ErrorType.noConfusion hh
    · obtain ⟨x, _, hfx⟩ := getElem?_map_eq_some hk
      exact hnobl x e hfx

/-- Witness for C6: a lone `/embed` request with no free slot is rejected
with `Overloaded`, while a one-item batch with a non-overloaded collaborator
never surfaces `Overloaded` even with no free slot. -/
theorem c6_admission_policy_witness :
    (embedHandler 0 ⟨"m", .embedding, 4⟩ witnessEmbedOracle
        ⟨.single "a", false, true⟩).result
        = .err 429 ⟨"Model is overloaded", .overloaded⟩ ∧
    (∀ (st : Nat) (e : ErrorResponse),
      (embedHandler 0 ⟨"m", .embedding, 4⟩ witnessEmbedOracle
          ⟨.batch ["a"], false, true⟩).result = .err st e →
      e.errorType ≠ .overloaded) :=
  ⟨c6_admission_policy.2.1 ⟨"m", .embedding, 4⟩ witnessEmbedOracle false true "a",
    c6_admission_policy.2.2.2.2.2.2.2.2.1 0 ⟨"m", .embedding, 4⟩ witnessEmbedOracle
      false true ["a"]
      (fun x e' h => absurd h (by simp [witnessEmbedOracle]))⟩

/-- A successful shared-batch run renders all three observability surfaces. -/
theorem runBatch_surfaces_of_ok {ItemOut Resp : Type} {maxSize : Nat}
    {items : List (Except ErrorResponse ItemOut)} {computeChars : Nat}
    {tokens tok que inf : ItemOut → Nat} {mkResponse : List ItemOut → Resp}
    {p : Resp × ResponseMetadata}
    (h : (runBatch maxSize items computeChars tokens tok que inf mkResponse).result
        = .ok p) :
    (runBatch maxSize items computeChars tokens tok que inf mkResponse).surfaces
        = [.traceSpan, .metricObservations, .transportHeaders] := by
  obtain ⟨resp, md⟩ := p
  obtain ⟨rs, hrs, hne, hsize, _, _⟩ := runBatch_ok_inv h
  rw [runBatch_success hrs hsize hne]

/-- C9 (amended): every successful response on `/predict`, `/rerank`,
`/embed` and `/embeddings` has its `ResponseMetadata` rendered to all three
observability surfaces (trace span, metric observations, transport headers);
the `/vectors` handler renders none of them on any path - it never constructs
a `ResponseMetadata` and returns an empty header map even on success. -/
theorem c9_metadata_surfaces :
    (∀ (free : Nat) (info : Info) (id2label : Nat → String) (oracle : PredictOracle)
      (req : PredictRequest) (out : PredictResponse × ResponseMetadata),
      (predictHandler free info id2label oracle req).result = .ok out →
      (predictHandler free info id2label oracle req).surfaces
          = [.traceSpan, .metricObservations, .transportHeaders]) ∧
    (∀ (free : Nat) (info : Info) (oracle : EmbedOracle) (req : EmbedRequest)
      (out : EmbedResponse × ResponseMetadata),
      (embedHandler free info oracle req).result = .ok out →
      (embedHandler free info oracle req).surfaces
          = [.traceSpan, .metricObservations, .transportHeaders]) ∧
    (∀ (free : Nat) (info : Info) (oracle : EmbedOracle) (req : OpenAICompatRequest)
      (out : OpenAICompatResponse × ResponseMetadata),
      (openaiHandler free info oracle req).result = .ok out →
      (openaiHandler free info oracle req).surfaces
          = [.traceSpan, .metricObservations, .transportHeaders]) ∧
    (∀ (info : Info) (oracle : PredictOracle) (req : RerankRequest)
      (out : List Rank × ResponseMetadata),
      (rerankHandler info oracle req).result = .ok out →
      (rerankHandler info oracle req).surfaces
          = [.traceSpan, .metricObservations, .transportHeaders]) ∧
    (∀ (free : Nat) (oracle : EmbedOracle) (body : Json),
      (weaviateHandler free oracle body).surfaces = []) := by
  refine ⟨?_, ?_, ?_, ?_, ?_⟩
  · intro free info id2label oracle req out h
    obtain ⟨inputs, t, rsc⟩ := req
    cases inputs with
    | single s =>
      rcases ha : tryAcquirePermit free with e | u <;>
        simp only [predictHandler, ha] at h ⊢
      · exact absurd h (by simp)
      · rcases ho : predictInner id2label oracle s t rsc with e | io <;>
          simp only [ho] at h ⊢
        exact absurd h (by simp)
    | batch l =>
      simp only [predictHandler] at h ⊢
      exact runBatch_surfaces_of_ok h
  · intro free info oracle req out h
    obtain ⟨inputs, t, n⟩ := req
    cases inputs with
    | single s =>
      rcases ha : tryAcquirePermit free with e | u <;>
        simp only [embedHandler, ha] at h ⊢
      · exact absurd h (by simp)
      · rcases ho : oracle s t n with e | r <;> simp only [ho] at h ⊢
        exact absurd h (by simp)
    | batch l =>
      simp only [embedHandler] at h ⊢
      exact runBatch_surfaces_of_ok h
  · intro free info oracle req out h
    obtain ⟨inputs, mo, uo⟩ := req
    cases inputs with
    | single s =>
      rcases ha : tryAcquirePermit free with e | u <;>
        simp only [openaiHandler, ha] at h ⊢
      · exact absurd h (by simp)
      · rcases ho : oracle s false true with e | r <;> simp only [ho] at h ⊢
        exact absurd h (by simp)
    | batch l =>
      simp only [openaiHandler] at h ⊢
      exact runBatch_surfaces_of_ok h
  · intro info oracle req out h
    obtain ⟨mid, mt, mx⟩ := info
    cases mt with
    | classifier => exact absurd h (by simp [rerankHandler])
    | embedding => exact absurd h (by simp [rerankHandler])
    | reranker =>
      simp only [rerankHandler] at h ⊢
      exact runBatch_surfaces_of_ok h
  · intro free oracle body
    rcases hp : parseWeaviateRequest body with _ | req <;>
      simp only [weaviateHandler, hp]
    rcases ha : tryAcquirePermit free with e | u <;> simp only [ha]
    rcases ho : oracle req.text req.truncate req.normalize with e | r <;>
      simp only [ho]

/-- C9 counterexample: a concrete successful `/vectors` request whose run
renders no surface at all - in particular not the transport headers. -/
theorem c9_counterexample_vectors_no_surfaces :
    (weaviateHandler 1 witnessEmbedOracle
        (Json.obj [("text", Json.str "hi")])).result
        = .ok ⟨"hi", [(2 : ℚ)], 1⟩ ∧
    (weaviateHandler 1 witnessEmbedOracle
        (Json.obj [("text", Json.str "hi")])).surfaces = [] ∧
    Surface.transportHeaders ∉
      (weaviateHandler 1 witnessEmbedOracle
        (Json.obj [("text", Json.str "hi")])).surfaces := by
  refine ⟨by decide, rfl, by decide⟩

/-- Witness for C9 at a concrete successful one-item `/embed` batch. -/
theorem c9_metadata_surfaces_witness :
    (embedHandler 1 ⟨"m", .embedding, 4⟩ witnessEmbedOracle
        ⟨.batch ["a"], false, true⟩).surfaces
      = [.traceSpan, .metricObservations, .transportHeaders] :=
  c9_metadata_surfaces.2.1 1 ⟨"m", .embedding, 4⟩ witnessEmbedOracle
    ⟨.batch ["a"], false, true⟩ ([[(1 : ℚ)]], ⟨1, 2, 4, 6, 8⟩) (by decide)

/-- Descending order of the source's ascending stable sort followed by
`reverse`. -/
theorem sorted_reverse_insertionSort {α : Type} (r : α → α → Prop) [DecidableRel r]
    [IsTotal α r] [IsTrans α r] (l : List α) :
    (l.insertionSort r).reverse.Pairwise (fun a b => r b a) := by
  rw [List.pairwise_reverse]
  exact List.sorted_insertionSort r l

/-- The per-item predictions of `predict_inner` come out sorted by descending
score. -/
theorem predictInner_predictions_sorted {id2label : Nat → String}
    {oracle : PredictOracle} {s : Sequence} {t rsc : Bool} {io : PredictItemOut}
    (h : predictInner id2label oracle s t rsc = .ok io) :
    io.predictions.Pairwise (fun a b : Prediction => b.score ≤ a.score) := by
  rcases ho : oracle s t rsc with e | r0 <;> simp only [predictInner, ho] at h
  · exact absurd h (by simp)
  · rw [← Except.ok.inj h]
    exact sorted_reverse_insertionSort predLe _

/-- C10: every successful `/predict` response (each item's prediction list)
and every successful `/rerank` response is sorted by descending score; each
`/rerank` result's `index` is the original position of its text, its `score`
is that item's inference score, and its `text` is present exactly when
`return_text` is set, in which case it echoes `texts[index]`. -/
theorem c10_results_sorted_desc :
    (∀ (free : Nat) (info : Info) (id2label : Nat → String) (oracle : PredictOracle)
      (req : PredictRequest) (preds : List Prediction) (md : ResponseMetadata),
      (predictHandler free info id2label oracle req).result = .ok (.single preds, md) →
      preds.Pairwise (fun a b : Prediction => b.score ≤ a.score)) ∧
    (∀ (free : Nat) (info : Info) (id2label : Nat → String) (oracle : PredictOracle)
      (req : PredictRequest) (outer : List (List Prediction)) (md : ResponseMetadata),
      (predictHandler free info id2label oracle req).result = .ok (.batch outer, md) →
      ∀ inner ∈ outer, inner.Pairwise (fun a b : Prediction => b.score ≤ a.score)) ∧
    (∀ (modelId q : String) (max : Nat) (oracle : PredictOracle) (texts : List String)
      (t rsc rt : Bool) (ranks : List Rank) (md : ResponseMetadata),
      (rerankHandler ⟨modelId, .reranker, max⟩ oracle ⟨q, texts, t, rsc, rt⟩).result
          = .ok (ranks, md) →
      ranks.Pairwise (fun a b : Rank => b.score ≤ a.score) ∧
      (∀ rk ∈ ranks, rk.index < texts.length ∧
        (∃ r : RerankItemOut,
          rerankInner oracle q (texts.getD rk.index "") t rsc = .ok r ∧
          rk.score = r.score) ∧
        rk.text = (if rt then some (texts.getD rk.index "") else none))) := by
  refine ⟨?_, ?_, ?_⟩
  · intro free info id2label oracle req preds md h
    obtain ⟨inputs, t, rsc⟩ := req
    cases inputs with
    | single s =>
      rcases ha : tryAcquirePermit free with e | u <;>
        simp only [predictHandler, ha] at h
      · exact absurd h (by simp)
      · rcases ho : predictInner id2label oracle s t rsc with e | io <;>
          simp only [ho] at h
        · exact absurd h (by simp)
        · have h' : RunResult.ok (A := PredictResponse × ResponseMetadata)
              (.single io.predictions,
                ⟨s.countChars, io.promptTokens, io.tokenization, io.queue, io.inference⟩)
              = .ok (.single preds, md) := h
          obtain ⟨h1, _⟩ := Prod.mk.inj (RunResult.ok.inj h')
          rw [← PredictResponse.single.inj h1]
          exact predictInner_predictions_sorted ho
    | batch l =>
      simp only [predictHandler] at h
      obtain ⟨rs, _, _, _, hresp, _⟩ := runBatch_ok_inv h
      exact absurd hresp (by simp)
  · intro free info id2label oracle req outer md h
    obtain ⟨inputs, t, rsc⟩ := req
    cases inputs with
    | single s =>
      rcases ha : tryAcquirePermit free with e | u <;>
        simp only [predictHandler, ha] at h
      · exact absurd h (by simp)
      · rcases ho : predictInner id2label oracle s t rsc with e | io <;>
          simp only [ho] at h
        · exact absurd h (by simp)
        · have h' : RunResult.ok (A := PredictResponse × ResponseMetadata)
              (.single io.predictions,
                ⟨s.countChars, io.promptTokens, io.tokenization, io.queue, io.inference⟩)
              = .ok (.batch outer, md) := h
          obtain ⟨h1, _⟩ := Prod.mk.inj (RunResult.ok.inj h')
          exact absurd h1 (by simp)
    | batch l =>
      simp only [predictHandler] at h
      obtain ⟨rs, hrs, _, _, hresp, _⟩ := runBatch_ok_inv h
      have hmap := collectResults_ok_iff.mp hrs
      have houter : outer = rs.map PredictItemOut.predictions :=
        PredictResponse.batch.inj hresp
      subst houter
      intro inner hmem
      obtain ⟨io, hio, heq⟩ := List.mem_map.mp hmem
      rw [← heq]
      have hokio : Except.ok io ∈ l.map
          (fun s => predictInner id2label oracle s t rsc) := by
        rw [hmap]
        exact List.mem_map_of_mem Except.ok hio
      obtain ⟨x, _, hfx⟩ := List.mem_map.mp hokio
      exact predictInner_predictions_sorted hfx
  · intro modelId q max oracle texts t rsc rt ranks md h
    simp only [rerankHandler] at h
    obtain ⟨rs, hrs, _, _, hranks, _⟩ := runBatch_ok_inv h
    have hmap := collectResults_ok_iff.mp hrs
    have hlen : texts.length = rs.length := by
      have hl := congrArg List.length hmap
      simpa using hl
    subst hranks
    refine ⟨sorted_reverse_insertionSort rankLe _, ?_⟩
    intro rk hrk
    rw [List.mem_reverse, List.mem_insertionSort] at hrk
    obtain ⟨p, hp, hf⟩ := List.mem_map.mp hrk
    have hri : rs[p.1]? = some p.2 := List.mem_enum_iff_getElem?.mp hp
    have hilt : p.1 < rs.length := (List.getElem?_eq_some.mp hri).1
    have hitx : p.1 < texts.length := by omega
    obtain ⟨x, hx⟩ : ∃ x : String, texts[p.1]? = some x :=
      ⟨texts[p.1], List.getElem?_eq_getElem hitx⟩
    obtain ⟨r', hr'i, hfx⟩ := map_eq_map_ok_getElem hmap hx
    have hr'p : r' = p.2 := Option.some.inj (hr'i.symm.trans hri)
    have hgetd : texts.getD p.1 "" = x := by
      rw [List.getD_eq_getElem?_getD, hx]
      rfl
    rw [← hf]
    refine ⟨hitx, ⟨p.2, ?_, rfl⟩, rfl⟩
    rw [hgetd, ← hr'p]
    exact hfx

/-- Concrete re-rank oracle for the C10 witness: the score of a
`(query, text)` pair is the text's length. -/
def witnessRerankOracle : PredictOracle := fun s _ _ =>
  match s with
  | .pair _ x => .ok ⟨[(x.length : ℚ)], 2, 4, 6, 8⟩
  | .single _ => .ok ⟨[(0 : ℚ)], 2, 4, 6, 8⟩

/-- Witness for C10 at a concrete two-text `/rerank` request. -/
theorem c10_results_sorted_desc_witness :
    ([⟨1, none, (2 : ℚ)⟩, ⟨0, none, (1 : ℚ)⟩] : List Rank).Pairwise
        (fun a b : Rank => b.score ≤ a.score) ∧
    (∀ rk ∈ ([⟨1, none, (2 : ℚ)⟩, ⟨0, none, (1 : ℚ)⟩] : List Rank),
      rk.index < (["a", "bb"] : List String).length ∧
      (∃ r : RerankItemOut,
        rerankInner witnessRerankOracle "q" ((["a", "bb"] : List String).getD rk.index "")
            false false = .ok r ∧
        rk.score = r.score) ∧
      rk.text = (if false then some ((["a", "bb"] : List String).getD rk.index "")
        else none)) :=
  c10_results_sorted_desc.2.2 "m" "q" 4 witnessRerankOracle ["a", "bb"]
    false false false [⟨1, none, (2 : ℚ)⟩, ⟨0, none, (1 : ℚ)⟩]
    (ResponseMetadata.mk 5 4 4 6 8) (by decide)

/-- C8: the kind-to-status mapping is a total function on the closed five-kind
set - Unhealthy 503, Backend 424, Overloaded 429, Tokenizer 422, Validation
413, each kind to exactly one status - and from the same `(message, kind)`
pair the native schema carries `{error, error_type}` unchanged while the
OpenAI-compatible schema carries `{message, type, code}` with `code` the
numeric value of the mapped status, for all five kinds. -/
theorem c8_error_taxonomy :
    (ErrorType.statusCode .unhealthy = 503 ∧ ErrorType.statusCode .backend = 424 ∧
      ErrorType.statusCode .overloaded = 429 ∧ ErrorType.statusCode .tokenizer = 422 ∧
      ErrorType.statusCode .validation = 413) ∧
    (∀ (msg : String) (k : ErrorType),
      (ErrorResponse.mk msg k).error = msg ∧ (ErrorResponse.mk msg k).errorType = k ∧
      (ErrorResponse.mk msg k).toOpenAICompat =
        OpenAICompatErrorResponse.mk msg k.statusCode k) :=
  ⟨⟨rfl, rfl, rfl, rfl, rfl⟩, fun _ _ => ⟨rfl, rfl, rfl⟩⟩

/-- C1 (refuted, code bug): the claim states that the metrics-aggregation
division `sum_of_nanoseconds / N` is reached only with `N ≥ 1` because batch
size is validated as non-empty upstream, in particular for `{"inputs": []}`
on `/embed`, `"texts": []` on `/rerank` and `{"input": []}` on `/embeddings`.
In the source the only guard on those three batch paths is
`batch_size > max_client_batch_size`, which an empty batch passes, so each of
them reaches `total_nanos / 0` - a `u64` division by zero, a Rust panic.
Only `/predict` is protected, by its deserializer. -/
theorem c1_empty_batch_reaches_zero_division :
    ∀ (free max : Nat) (modelId q : String) (oracleE : EmbedOracle)
      (oracleP : PredictOracle) (t n rs rt : Bool),
      (embedHandler free ⟨modelId, .embedding, max⟩ oracleE ⟨.batch [], t, n⟩).result
          = .panic ∧
      (rerankHandler ⟨modelId, .reranker, max⟩ oracleP ⟨q, [], t, rs, rt⟩).result
          = .panic ∧
      (openaiHandler free ⟨modelId, .embedding, max⟩ oracleE
          ⟨.batch [], none, none⟩).result = .panic := by
  intro free max modelId q oracleE oracleP t n rs rt
  refine ⟨?_, ?_, ?_⟩ <;>
    simp [embedHandler, rerankHandler, openaiHandler, runBatch, collectResults,
      rustDiv, sumBy, inferFailureEvents, Nat.not_lt_zero]

/-- C7: for every successful batch on `/predict` of size `N`, the metadata
duration fields are the truncating integer quotients of the summed per-item
nanoseconds by `N`, while `compute_chars` and `compute_tokens` are sums over
all items; and the spec's example holds: tokenization durations of 10ms and
21ms average to 15500000ns, which the truncating millisecond rendering
reports as 15ms (not rounded to 16ms). -/
theorem c7_batch_duration_truncation :
    (∀ (free : Nat) (info : Info) (id2label : Nat → String) (oracle : PredictOracle)
      (truncate rawScores : Bool) (inputs : List Sequence)
      (out : PredictResponse) (md : ResponseMetadata),
      (predictHandler free info id2label oracle ⟨.batch inputs, truncate, rawScores⟩).result
          = .ok (out, md) →
      ∃ rs : List PredictItemOut,
        collectResults (inputs.map
            (fun s => predictInner id2label oracle s truncate rawScores)) = .ok rs ∧
        inputs.length ≠ 0 ∧
        md.computeChars = (inputs.map Sequence.countChars).sum ∧
        md.computeTokens = (rs.map PredictItemOut.promptTokens).sum ∧
        md.tokenization = (rs.map PredictItemOut.tokenization).sum / inputs.length ∧
        md.queue = (rs.map PredictItemOut.queue).sum / inputs.length ∧
        md.inference = (rs.map PredictItemOut.inference).sum / inputs.length) ∧
    (msNanos 10 + msNanos 21) / 2 = 15500000 ∧
    durationAsMillis ((msNanos 10 + msNanos 21) / 2) = 15 := by
  refine ⟨?_, by norm_num [msNanos], by norm_num [msNanos, durationAsMillis]⟩
  intro free info id2label oracle truncate rawScores inputs out md h
  simp only [predictHandler] at h
  obtain ⟨rs, hrs, hne, _, _, hmd⟩ := runBatch_ok_inv h
  rw [List.length_map] at hne hmd
  refine ⟨rs, hrs, hne, ?_, ?_, ?_, ?_, ?_⟩ <;>
    rw [hmd] <;> simp [sumBy_eq_sum_map]

/-- Concrete oracle for the C7 witness: fixed scores, tokenization durations
of 10ms for input "a" and 21ms for input "b". -/
def witnessC7Oracle : PredictOracle := fun s _ _ =>
  if s = Sequence.single "b" then .ok ⟨[(1 : ℚ)], 3, 21000000, 5, 7⟩
  else .ok ⟨[(1 : ℚ)], 3, 10000000, 5, 7⟩

/-- Witness for C7 at a concrete two-item batch. -/
theorem c7_batch_duration_truncation_witness :
    ∃ rs : List PredictItemOut,
      collectResults ([Sequence.single "a", Sequence.single "b"].map
          (fun s => predictInner (fun _ => "L") witnessC7Oracle s false false)) = .ok rs ∧
      ([Sequence.single "a", Sequence.single "b"] : List Sequence).length ≠ 0 ∧
      (ResponseMetadata.mk 2 6 15500000 5 7).computeChars
          = (([Sequence.single "a", Sequence.single "b"] : List Sequence).map
              Sequence.countChars).sum ∧
      (ResponseMetadata.mk 2 6 15500000 5 7).computeTokens
          = (rs.map PredictItemOut.promptTokens).sum ∧
      (ResponseMetadata.mk 2 6 15500000 5 7).tokenization
          = (rs.map PredictItemOut.tokenization).sum
            / ([Sequence.single "a", Sequence.single "b"] : List Sequence).length ∧
      (ResponseMetadata.mk 2 6 15500000 5 7).queue
          = (rs.map PredictItemOut.queue).sum
            / ([Sequence.single "a", Sequence.single "b"] : List Sequence).length ∧
      (ResponseMetadata.mk 2 6 15500000 5 7).inference
          = (rs.map PredictItemOut.inference).sum
            / ([Sequence.single "a", Sequence.single "b"] : List Sequence).length :=
  c7_batch_duration_truncation.1 0 ⟨"m", .classifier, 8⟩ (fun _ => "L") witnessC7Oracle
    false false [Sequence.single "a", Sequence.single "b"]
    (.batch [[⟨1, "L"⟩], [⟨1, "L"⟩]]) (ResponseMetadata.mk 2 6 15500000 5 7) (by decide)

end TEI
